import Mathlib

/-!
# suminio: the privilege-dropping launcher of lens3

A shallow embedding of `src/lenticularis/suminio.c`.  The program is a single
`main` that runs a fixed chain of gates, each of which either lets control
pass or terminates the process with its own exit status, and finally replaces
the process image with the compiled-in target program.

* C strings are `String`s (the bytes before the terminating NUL); a `char *`
  that may be `NULL` is an `Option String`.
* `uid_t` / `gid_t` values are natural numbers.  They are only ever compared
  for equality, so no modular arithmetic is involved.
* The macros `LENTICULARIS`, `MINIO`, `DENIED_USERS` and `ALLOWED_GROPUS` are
  supplied on the compiler command line; they are the fields of `Config`.
* The operating system is an `Oracle`: the real uid, the user and group
  databases, the result of `setgid`, `setuid` and `execve`, and `environ`.
* A run of `main` yields the list of identity lookups and system calls it
  performed, in program order, and the way the process ended.  Diagnostics
  (`syslog`, `fprintf(stderr, ...)`) have no influence on control flow and are
  left out.
-/

namespace Suminio

/-! ## Data model -/

/-- The compile-time configuration: the values of the four `-D` macros. -/
structure Config where
  /-- `LENTICULARIS`: the uid of the only caller allowed to run the program. -/
  LENTICULARIS : Nat
  /-- `MINIO`: the absolute path of the only program that is ever executed. -/
  MINIO : String
  /-- `DENIED_USERS`: the contents of the array `deniend_users`. -/
  DENIED_USERS : List Nat
  /-- `ALLOWED_GROPUS`: the contents of the array `allowed_groups`. -/
  ALLOWED_GROPUS : List Nat

/-- The fields of `struct passwd` that `main` reads. -/
structure Passwd where
  pw_uid : Nat
  pw_gid : Nat
deriving DecidableEq, Repr

/-- The field of `struct group` that `main` reads. -/
structure Group where
  gr_gid : Nat
deriving DecidableEq, Repr

/-- The operating system as seen by `main`.  For `setgid`, `setuid` and
`execve` the Boolean is `true` when the call succeeds (`setgid` and `setuid`
return `0`, `execve` does not return) and `false` when it returns `-1`. -/
structure Oracle where
  getuid : Nat
  getpwnam : String → Option Passwd
  getgrnam : String → Option Group
  setgid : Nat → Bool
  setuid : Nat → Bool
  execve : String → List String → List String → Bool
  environ : List String
  /-- The indeterminate initial contents of the local array `cmd` of `main`. -/
  stack : Fin 16 → Option String

/-- The lookups and system calls of a run that the properties speak about. -/
inductive Event where
  | getpwnam (name : String)
  | getgrnam (name : String)
  | setgid (gid : Nat)
  | setuid (uid : Nat)
  | execve (path : String) (argv : List String) (envp : List String)
deriving DecidableEq, Repr

/-- How the process ends: with an exit status, or by becoming the target
program. -/
inductive Outcome where
  | exit (status : Nat)
  | exec (path : String) (argv : List String) (envp : List String)
deriving DecidableEq, Repr

/-- A complete run: what was called, in order, and how the process ended. -/
structure Run where
  trace : List Event
  outcome : Outcome
deriving DecidableEq, Repr

/-! ## libc -/

/-- The function `strcmp` of libc: zero for equal strings, negative or positive
according to the lexicographic order otherwise. -/
def strcmp (a b : String) : Int :=
  if a = b then 0 else if a < b then -1 else 1

/-- What `main` can observe of one pass of its `getopt` loop body. -/
inductive Getopt where
  /-- `getopt` returned `-1`; `rest` is `argv + optind`. -/
  | done (rest : List String)
  /-- `getopt` returned the option character `ch` with `optarg` set; `rest` is
  `argv + optind`. -/
  | opt (ch : Char) (optarg : String) (rest : List String)
  /-- `getopt` returned `'?'`. -/
  | err
deriving DecidableEq, Repr

/-- One call `getopt(argc, argv, "+u:g:")` of GNU libc, on the arguments from
`optind` on.  The leading `+` makes the scan stop at the first element that is
not an option (one that does not start with `-`, or is `-` alone); the element
`--` is skipped and ends the scan.  Both option characters take a required
argument: the rest of the element when that is not empty, the next element
otherwise; a missing argument and any other option character give `'?'`.
Since every option takes an argument, a call always starts at the beginning of
an element. -/
def getopt : List String → Getopt
  | [] => .done []
  | a :: rest =>
    if a = "--" then .done rest
    else
      match a.data with
      | '-' :: c :: tail =>
        if c = 'u' ∨ c = 'g' then
          match tail with
          | _ :: _ => .opt c (String.mk tail) rest
          | [] =>
            match rest with
            | [] => .err
            | v :: rest' => .opt c v rest'
        else .err
      | _ => .done (a :: rest)

/-- The `while` loop of `main` around `getopt`, with `user` and `group` the
values of the two variables so far: `none` when `usage` is called, otherwise
the final `user` and `group` and `argv + optind`.  Every call of `getopt` that
returns an option consumes at least one element, so the loop body runs at most
once per element; `fuel` bounds the number of passes, and with more fuel than
elements the bound is never reached (`getopt_loop_unfold`). -/
def getopt_loop : Nat → List String → Option String → Option String →
    Option (Option String × Option String × List String)
  | 0, _, _, _ => none
  | fuel + 1, args, user, group =>
    match getopt args with
    | .done rest => some (user, group, rest)
    | .opt ch optarg rest =>
      if ch = 'u' then getopt_loop fuel rest (some optarg) group
      else if ch = 'g' then getopt_loop fuel rest user (some optarg)
      else none
    | .err => none

/-- Lines 75-88 of `main`: the option loop run on `argv + 1` from `user = NULL`
and `group = NULL`, with one pass more than there are elements. -/
def parse_options (argv : List String) :
    Option (Option String × Option String × List String) :=
  getopt_loop ((argv.drop 1).length + 1) (argv.drop 1) none none

/-! ## The argument vector -/

/-- The number of elements of the array `cmd`: `nelems(cmd)`. -/
def nelems_cmd : Nat := 16

/-- The array `cmd` together with the indices of the assignments made to it,
oldest first. -/
structure Buf where
  cells : List (Option String)
  writes : List Nat
deriving DecidableEq, Repr

/-- The assignment `cmd[i] = v`. -/
def Buf.store (b : Buf) (i : Nat) (v : Option String) : Buf :=
  { cells := b.cells.set i v, writes := b.writes ++ [i] }

/-- The loop of lines 131-134: copies arguments while `i + 1 < nelems(cmd)` and
`argc > 0`; returns the array, `i` and the arguments not copied. -/
def cmd_loop (b : Buf) (i : Nat) : List String → Buf × Nat × List String
  | [] => (b, i, [])
  | a :: rest =>
    if i + 1 < nelems_cmd then cmd_loop (b.store i (some a)) (i + 1) rest
    else (b, i, a :: rest)

/-- Lines 128-135: `cmd[0] = MINIO`, the copy loop, and the terminating
`NULL`; returns the array and the arguments not copied. -/
def build_cmd (cfg : Config) (os : Oracle) (argv : List String) : Buf × List String :=
  let b : Buf := { cells := List.ofFn os.stack, writes := [] }
  let b := b.store 0 (some cfg.MINIO)
  match cmd_loop b 1 argv with
  | (b, i, rest) => (b.store i none, rest)

/-- The strings of a `NULL`-terminated vector, as `execve` reads them. -/
def vector_of : List (Option String) → List String
  | some s :: cells => s :: vector_of cells
  | _ => []

/-! ## The gates -/

/-- The loop of `check_allowed_users` over the array `deniend_users`: the exit
status if the process is terminated, `none` if the function returns. -/
def check_allowed_users_loop (uid : Nat) : List Nat → Option Nat
  | [] => none
  | d :: ds => if uid = d then some 251 else check_allowed_users_loop uid ds

/-- The loop of `check_allowed_groups` over the array `allowed_groups`: the exit
status if the process is terminated, `none` if the function returns. -/
def check_allowed_groups_loop (gid : Nat) : List Nat → Option Nat
  | [] => none
  | a :: as => if gid ≠ a then some 252 else check_allowed_groups_loop gid as

/-- The gate `check_allowed_base_user`: the exit status if the process is
terminated, `none` if the function returns. -/
def check_allowed_base_user (cfg : Config) (uid : Nat) : Option Nat :=
  if uid ≠ cfg.LENTICULARIS then some 249 else none

/-- The gate `cechk_allowed_command`. -/
def cechk_allowed_command (cfg : Config) (cmd : String) : Option Nat :=
  if strcmp cmd cfg.MINIO ≠ 0 then some 250 else none

/-- The gate `check_allowed_users`. -/
def check_allowed_users (cfg : Config) (uid : Nat) : Option Nat :=
  check_allowed_users_loop uid cfg.DENIED_USERS

/-- The gate `check_allowed_groups`. -/
def check_allowed_groups (cfg : Config) (gid : Nat) : Option Nat :=
  check_allowed_groups_loop gid cfg.ALLOWED_GROPUS

/-- The function `usage`: it always terminates the process with status 125. -/
def usage : Nat := 125

/-! ## main -/

/-- Lines 153-168 of `main`: `setuid`, then `execve` with the vector read from
`cmd`.  `trace` holds the calls made so far. -/
def drop_user (cfg : Config) (os : Oracle) (trace : List Event) (pwd : Passwd)
    (cmd : Buf) : Run :=
  if os.setuid pwd.pw_uid = false then ⟨trace ++ [.setuid pwd.pw_uid], .exit 6⟩
  else
    let args := vector_of cmd.cells
    if os.execve cfg.MINIO args os.environ = true then
      ⟨trace ++ [.setuid pwd.pw_uid, .execve cfg.MINIO args os.environ],
        .exec cfg.MINIO args os.environ⟩
    else
      ⟨trace ++ [.setuid pwd.pw_uid, .execve cfg.MINIO args os.environ], .exit 126⟩

/-- Lines 128-168 of `main`: the argument vector, the bound on the number of
arguments, `setgid` when a group was given, and the rest in `drop_user`.
`trace` holds the lookups made so far. -/
def handoff (cfg : Config) (os : Oracle) (trace : List Event) (pwd : Passwd)
    (grp : Option Group) (argv : List String) : Run :=
  match build_cmd cfg os argv with
  | (cmd, rest) =>
    match rest with
    | _ :: _ => ⟨trace, .exit 4⟩
    | [] =>
      match grp with
      | some g =>
        if os.setgid g.gr_gid = false then ⟨trace ++ [.setgid g.gr_gid], .exit 5⟩
        else drop_user cfg os (trace ++ [.setgid g.gr_gid]) pwd cmd
      | none => drop_user cfg os trace pwd cmd

/-- Lines 108-119 of `main`: the lookup of the user, the two gates on the
record found, and the lookup of the group when one was given. -/
def resolve (cfg : Config) (os : Oracle) (user : String) (group : Option String)
    (argv : List String) : Run :=
  match os.getpwnam user with
  | none => ⟨[.getpwnam user], .exit 2⟩
  | some pwd =>
    match check_allowed_users cfg pwd.pw_uid with
    | some st => ⟨[.getpwnam user], .exit st⟩
    | none =>
      match check_allowed_groups cfg pwd.pw_gid with
      | some st => ⟨[.getpwnam user], .exit st⟩
      | none =>
        match group with
        | none => handoff cfg os [.getpwnam user] pwd none argv
        | some g =>
          match os.getgrnam g with
          | none => ⟨[.getpwnam user, .getgrnam g], .exit 3⟩
          | some grp => handoff cfg os [.getpwnam user, .getgrnam g] pwd (some grp) argv

/-- The function `main`, run with the configuration `cfg` on the system `os`
with the argument list `argv` (`argv[0]` included). -/
def main (cfg : Config) (os : Oracle) (argv : List String) : Run :=
  match check_allowed_base_user cfg os.getuid with
  | some st => ⟨[], .exit st⟩
  | none =>
    match parse_options argv with
    | none => ⟨[], .exit usage⟩
    | some (user, group, argv) =>
      match user with
      | none => ⟨[], .exit usage⟩
      | some user =>
        match argv with
        | [] => ⟨[], .exit usage⟩
        | arg0 :: argv =>
          match cechk_allowed_command cfg arg0 with
          | some st => ⟨[], .exit st⟩
          | none => resolve cfg os user group argv

/-! ## Kinds of events -/

/-- A call that changes the process: `setgid`, `setuid` or `execve`. -/
def Event.isAction : Event → Bool
  | .setgid _ => true
  | .setuid _ => true
  | .execve _ _ _ => true
  | _ => false

/-- A lookup in the user or group database: `getpwnam` or `getgrnam`. -/
def Event.isLookup : Event → Bool
  | .getpwnam _ => true
  | .getgrnam _ => true
  | _ => false

/-! ## A concrete installation

The values of the end-to-end scenarios: the operator has uid 1000, the target
program is `/usr/bin/minio`, uid 0 may not be impersonated and gid 200 is the
only allowed primary group. -/

/-- The scenario configuration. -/
def scenario_cfg : Config :=
  { LENTICULARIS := 1000, MINIO := "/usr/bin/minio", DENIED_USERS := [0],
    ALLOWED_GROPUS := [200] }

/-- A system called by the user with uid `caller`: the users `svc`
(uid 2000, gid 200), `guest` (uid 3000, gid 300) and `root` (uid 0, gid 200),
the groups `minio` (gid 200) and `wheel` (gid 10); `setgid` succeeds when
`gidok` is set, `setuid` and `execve` always do. -/
def scenario_os (caller : Nat) (gidok : Bool) : Oracle :=
  { getuid := caller,
    getpwnam := fun name =>
      if name = "svc" then some ⟨2000, 200⟩
      else if name = "guest" then some ⟨3000, 300⟩
      else if name = "root" then some ⟨0, 200⟩
      else none,
    getgrnam := fun name =>
      if name = "minio" then some ⟨200⟩
      else if name = "wheel" then some ⟨10⟩
      else none,
    setgid := fun _ => gidok,
    setuid := fun _ => true,
    execve := fun _ _ _ => true,
    environ := ["PATH=/usr/bin"],
    stack := fun _ => some "junk" }

/-- A well-formed command line: user `svc`, group `minio`, the target program
and two arguments for it. -/
def scenario_argv : List String :=
  ["suminio", "-u", "svc", "-g", "minio", "/usr/bin/minio", "server", "/data"]

/-- The scenario configuration with two allowed groups, 200 and 300. -/
def two_groups_cfg : Config :=
  { LENTICULARIS := 1000, MINIO := "/usr/bin/minio", DENIED_USERS := [0],
    ALLOWED_GROPUS := [200, 300] }

/-- The scenario configuration with the two allowed groups in the other
order. -/
def two_groups_swapped_cfg : Config :=
  { LENTICULARIS := 1000, MINIO := "/usr/bin/minio", DENIED_USERS := [0],
    ALLOWED_GROPUS := [300, 200] }

/-- The scenario configuration with no allowed group at all. -/
def no_group_cfg : Config :=
  { LENTICULARIS := 1000, MINIO := "/usr/bin/minio", DENIED_USERS := [0],
    ALLOWED_GROPUS := [] }

/-- A command line with twenty arguments for the target program. -/
def twenty_args_argv : List String :=
  ["suminio", "-u", "svc", "-g", "minio", "/usr/bin/minio",
    "a1", "a2", "a3", "a4", "a5", "a6", "a7", "a8", "a9", "a10",
    "a11", "a12", "a13", "a14", "a15", "a16", "a17", "a18", "a19", "a20"]

/-! ## The identity of the process -/

/-- The effective user id and group id of the process. -/
structure Cred where
  uid : Nat
  gid : Nat
deriving DecidableEq, Repr

/-- The effect of one call on the identity of the process: a `setgid` that
succeeds makes its argument the group id, a `setuid` that succeeds makes its
argument the user id, a call that fails and every other call change
nothing. -/
def Cred.step (os : Oracle) (c : Cred) : Event → Cred
  | .setgid gid => if os.setgid gid = true then { c with gid := gid } else c
  | .setuid uid => if os.setuid uid = true then { c with uid := uid } else c
  | _ => c

/-- The identity of a process that started as `c` and made the calls of
`trace`. -/
def cred_after (os : Oracle) (c : Cred) (trace : List Event) : Cred :=
  trace.foldl (Cred.step os) c

/-! ## The shapes of a command line -/

/-- A complete option as it can be written on the command line: `-u` or `-g`
with its argument, either joined to the option letter in one element
(`-uname`) or as the next element (`-u name`). -/
inductive Opt where
  | user (joined : Bool) (value : String)
  | group (joined : Bool) (value : String)
deriving DecidableEq, Repr

/-- The elements of the command line that make up one option. -/
def Opt.render : Opt → List String
  | .user true v => [String.mk ('-' :: 'u' :: v.data)]
  | .user false v => ["-u", v]
  | .group true v => [String.mk ('-' :: 'g' :: v.data)]
  | .group false v => ["-g", v]

/-- An argument joined to its option letter is not empty (`-u` alone takes the
next element). -/
def Opt.wf : Opt → Bool
  | .user true v => v.data ≠ []
  | .group true v => v.data ≠ []
  | _ => true

/-- The elements of the command line that make up a sequence of options. -/
def render_options : List Opt → List String
  | [] => []
  | o :: opts => o.render ++ render_options opts

/-- The user named by a sequence of options: the argument of the last `-u`,
or `user` if there is none. -/
def options_user (user : Option String) : List Opt → Option String
  | [] => user
  | .user _ v :: opts => options_user (some v) opts
  | .group _ _ :: opts => options_user user opts

/-- The group named by a sequence of options: the argument of the last `-g`,
or `group` if there is none. -/
def options_group (group : Option String) : List Opt → Option String
  | [] => group
  | .user _ _ :: opts => options_group group opts
  | .group _ v :: opts => options_group (some v) opts

/-- Whether a command-line element starts with `-`. -/
def starts_with_dash (a : String) : Bool :=
  match a.data with
  | '-' :: _ => true
  | _ => false

/-- Whether a command-line element is an option that `main` does not know:
`-` followed by a character other than `u` and `g`, the element `--` apart. -/
def unknown_option (a : String) : Bool :=
  match a.data with
  | '-' :: c :: _ => a ≠ "--" ∧ c ≠ 'u' ∧ c ≠ 'g'
  | _ => false

/-- The command line of the first end-to-end scenario: user `svc`, no group,
the target program and two arguments for it. -/
def plain_argv : List String :=
  ["suminio", "-u", "svc", "/usr/bin/minio", "server", "/data"]

end Suminio

/-!
# nrandom: the byte-stream generator of the system tests

A shallow embedding of `test/system/nrandom.c`, from the point where the size
given with `-s` has been read.  Values of type `size_t` are natural numbers
below `2 ^ 64`, and the arithmetic on them wraps around.
-/

namespace Nrandom

/-- The block size `BSIZE`, which is also the size of `buf`. -/
def BSIZE : Nat := 4096

/-- The number of values of `size_t`: `SIZE_MAX + 1`. -/
def SIZE_MOD : Nat := 2 ^ 64

/-- The largest value of `size_t`. -/
def SIZE_MAX : Nat := SIZE_MOD - 1

/-- The expression `(size + BSIZE - 1) / BSIZE` of line 65, evaluated from left
to right in `size_t`: the sum and the difference wrap around. -/
def rounded_blocks (size : Nat) : Nat :=
  (((size + BSIZE) % SIZE_MOD + SIZE_MOD - 1) % SIZE_MOD) / BSIZE

/-- Lines 61-67 of `main`: the value of `count` for the size read from `-s`
(0 without `-s`), or `none` when `assert(count != 0)` fails and the process is
aborted. -/
def block_count (size : Nat) : Option Nat :=
  if size = 0 then some 0
  else if rounded_blocks size ≠ 0 then some (rounded_blocks size)
  else none

/-- The loop of lines 68-70, started with the given value of `i` after
`written` calls of `fwrite`, each of which writes one block of `BSIZE` bytes:
the number of blocks written, and whether the loop has ended.  The loop is
followed for at most `fuel` passes; the second component is `false` when it is
still running after that many. -/
def write_loop (count : Nat) : Nat → Nat → Nat → Nat × Bool
  | 0, _, written => (written, false)
  | fuel + 1, i, written =>
    if count = 0 ∨ i < count then
      write_loop count fuel ((i + 1) % SIZE_MOD) (written + 1)
    else (written, true)

/-- How a run of `nrandom` stands after a number of passes of its loop. -/
inductive Ending where
  /-- The function `main` has returned the status. -/
  | returned (status : Nat)
  /-- The assertion failed and `abort` was called. -/
  | aborted
  /-- The loop is still running. -/
  | running
deriving DecidableEq, Repr

/-- The blocks written so far and the state of the run. -/
structure Output where
  blocks : Nat
  ending : Ending
deriving DecidableEq, Repr

/-- Lines 57-72 of `main`, for the size read from `-s` (0 without `-s`),
followed for at most `fuel` passes of the write loop. -/
def main (size : Nat) (fuel : Nat) : Output :=
  match block_count size with
  | none => ⟨0, .aborted⟩
  | some count =>
    match write_loop count fuel 0 0 with
    | (written, true) => ⟨written, .returned 0⟩
    | (written, false) => ⟨written, .running⟩

end Nrandom

namespace Suminio

/-! ## Properties of the libc functions and of the gates -/

theorem strcmp_eq_zero_iff (a b : String) : strcmp a b = 0 ↔ a = b := by
  unfold strcmp
  by_cases h : a = b
  · simp [h]
  · by_cases h2 : a < b <;> simp [h, h2]

theorem cechk_allowed_command_none_iff (cfg : Config) (cmd : String) :
    cechk_allowed_command cfg cmd = none ↔ cmd = cfg.MINIO := by
  simp [cechk_allowed_command, strcmp_eq_zero_iff]

theorem cechk_allowed_command_some_iff (cfg : Config) (cmd : String) (st : Nat) :
    cechk_allowed_command cfg cmd = some st ↔ cmd ≠ cfg.MINIO ∧ st = 250 := by
  have hz := strcmp_eq_zero_iff cmd cfg.MINIO
  unfold cechk_allowed_command
  by_cases h : cmd = cfg.MINIO
  · have hz2 : strcmp cfg.MINIO cfg.MINIO = 0 := (strcmp_eq_zero_iff _ _).mpr rfl
    simp [h, hz2]
  · have hne : strcmp cmd cfg.MINIO ≠ 0 := fun e => h (hz.mp e)
    simp [h, hne, eq_comm]

theorem check_allowed_base_user_none_iff (cfg : Config) (uid : Nat) :
    check_allowed_base_user cfg uid = none ↔ uid = cfg.LENTICULARIS := by
  simp [check_allowed_base_user]

theorem check_allowed_base_user_some_iff (cfg : Config) (uid st : Nat) :
    check_allowed_base_user cfg uid = some st ↔ uid ≠ cfg.LENTICULARIS ∧ st = 249 := by
  unfold check_allowed_base_user
  by_cases h : uid = cfg.LENTICULARIS <;> simp [h, eq_comm]

theorem check_allowed_users_loop_none_iff (uid : Nat) (l : List Nat) :
    check_allowed_users_loop uid l = none ↔ uid ∉ l := by
  induction l with
  | nil => simp [check_allowed_users_loop]
  | cons d ds ih =>
    by_cases h : uid = d <;> simp [check_allowed_users_loop, h, ih]

theorem check_allowed_users_loop_some_iff (uid st : Nat) (l : List Nat) :
    check_allowed_users_loop uid l = some st ↔ uid ∈ l ∧ st = 251 := by
  induction l with
  | nil => simp [check_allowed_users_loop]
  | cons d ds ih =>
    by_cases h : uid = d
    · simp [check_allowed_users_loop, h, eq_comm]
    · simp [check_allowed_users_loop, h, ih]

theorem check_allowed_groups_loop_none_iff (gid : Nat) (l : List Nat) :
    check_allowed_groups_loop gid l = none ↔ ∀ a ∈ l, a = gid := by
  induction l with
  | nil => simp [check_allowed_groups_loop]
  | cons d ds ih =>
    by_cases h : gid = d
    · subst h
      simp [check_allowed_groups_loop, ih]
    · have h2 : ¬ d = gid := fun e => h e.symm
      simp [check_allowed_groups_loop, h, h2]

theorem check_allowed_groups_loop_some_iff (gid st : Nat) (l : List Nat) :
    check_allowed_groups_loop gid l = some st ↔ (∃ a ∈ l, a ≠ gid) ∧ st = 252 := by
  induction l with
  | nil => simp [check_allowed_groups_loop]
  | cons d ds ih =>
    by_cases h : gid = d
    · subst h
      simp [check_allowed_groups_loop, ih]
    · have h2 : ¬ d = gid := fun e => h e.symm
      simp only [check_allowed_groups_loop, ne_eq, h, not_false_eq_true, if_true,
        Option.some.injEq, List.mem_cons]
      constructor
      · intro e
        exact ⟨⟨d, Or.inl rfl, h2⟩, e.symm⟩
      · intro e
        exact e.2.symm

/-! ## Properties of the argument vector -/

theorem vector_of_map_some_none (pre : List String) (suf : List (Option String)) :
    vector_of (pre.map some ++ none :: suf) = pre := by
  induction pre with
  | nil => simp [vector_of]
  | cons a pre ih => simp [vector_of, ih]

theorem cmd_loop_spec (args : List String) :
    ∀ (b : Buf) (i : Nat) (pre : List String) (suf : List (Option String)),
      b.cells = pre.map some ++ suf → pre.length = i → i + suf.length = 16 → i ≤ 15 →
      (cmd_loop b i args).2.2 = args.drop (15 - i) ∧
      ∃ suf', (cmd_loop b i args).1.cells = (pre ++ args.take (15 - i)).map some ++ suf' ∧
        (pre ++ args.take (15 - i)).length = (cmd_loop b i args).2.1 ∧
        (cmd_loop b i args).2.1 + suf'.length = 16 ∧ (cmd_loop b i args).2.1 ≤ 15 := by
  induction args with
  | nil =>
    intro b i pre suf hc hi hl hle
    exact ⟨by simp [cmd_loop], suf, by simp [cmd_loop, hc], by simp [cmd_loop, hi],
      by simp [cmd_loop, hl], by simp [cmd_loop, hle]⟩
  | cons a rest ih =>
    intro b i pre suf hc hi hl hle
    by_cases hlt : i + 1 < nelems_cmd
    · have hlt16 : i + 1 < 16 := hlt
      obtain ⟨x, suf0, rfl⟩ : ∃ x suf0, suf = x :: suf0 := by
        cases suf with
        | nil => simp at hl; omega
        | cons x suf0 => exact ⟨x, suf0, rfl⟩
      have hstore : (b.store i (some a)).cells = (pre ++ [a]).map some ++ suf0 := by
        simp [Buf.store, hc, ← hi]
      have hl2 : (i + 1) + suf0.length = 16 := by simp at hl; omega
      obtain ⟨h1, suf', h2, h3, h4, h5⟩ :=
        ih (b.store i (some a)) (i + 1) (pre ++ [a]) suf0 hstore (by simp [hi]) hl2 (by omega)
      have e15 : 15 - i = (15 - (i + 1)) + 1 := by omega
      have hstep : cmd_loop b i (a :: rest) = cmd_loop (b.store i (some a)) (i + 1) rest := by
        simp [cmd_loop, hlt]
      rw [hstep, e15]
      refine ⟨by simpa using h1, suf', ?_, ?_, h4, h5⟩
      · simpa using h2
      · simpa using h3
    · have hi15 : i = 15 := by unfold nelems_cmd at hlt; omega
      have hstep : cmd_loop b i (a :: rest) = (b, i, a :: rest) := by
        simp [cmd_loop, hlt]
      rw [hstep]
      subst hi15
      exact ⟨by simp, suf, by simp [hc], by simp [hi], by simpa using hl, by simp⟩

theorem build_cmd_cells (cfg : Config) (os : Oracle) (argv : List String) :
    (build_cmd cfg os argv).2 = argv.drop 14 ∧
    ∃ suf, (build_cmd cfg os argv).1.cells =
      (cfg.MINIO :: argv.take 14).map some ++ none :: suf := by
  obtain ⟨x, tl, hx⟩ : ∃ x tl, List.ofFn os.stack = x :: tl := by
    cases h : List.ofFn os.stack with
    | nil => have := congrArg List.length h; rw [List.length_ofFn] at this; simp at this
    | cons x tl => exact ⟨x, tl, rfl⟩
  have htl : tl.length = 15 := by
    have := congrArg List.length hx
    rw [List.length_ofFn, List.length_cons] at this
    omega
  have hb : (Buf.store ⟨List.ofFn os.stack, []⟩ 0 (some cfg.MINIO)).cells
      = [cfg.MINIO].map some ++ tl := by
    simp only [Buf.store, hx, List.set_cons_zero]
    rfl
  have hbuild : build_cmd cfg os argv =
      ((cmd_loop (Buf.store ⟨List.ofFn os.stack, []⟩ 0 (some cfg.MINIO)) 1 argv).1.store
        (cmd_loop (Buf.store ⟨List.ofFn os.stack, []⟩ 0 (some cfg.MINIO)) 1 argv).2.1 none,
       (cmd_loop (Buf.store ⟨List.ofFn os.stack, []⟩ 0 (some cfg.MINIO)) 1 argv).2.2) := rfl
  obtain ⟨h1, suf', h2, h3, h4, h5⟩ :=
    cmd_loop_spec argv _ 1 [cfg.MINIO] tl hb rfl (by omega) (by omega)
  rw [hbuild]
  generalize cmd_loop (Buf.store ⟨List.ofFn os.stack, []⟩ 0 (some cfg.MINIO)) 1 argv = r
    at h1 h2 h3 h4 h5
  obtain ⟨y, suf0, rfl⟩ : ∃ y suf0, suf' = y :: suf0 := by
    cases suf' with
    | nil => rw [List.length_nil] at h4; omega
    | cons y suf0 => exact ⟨y, suf0, rfl⟩
  refine ⟨h1, suf0, ?_⟩
  have hlen : (List.map some ([cfg.MINIO] ++ List.take (15 - 1) argv)).length = r.2.1 := by
    rw [List.length_map]; exact h3
  show r.1.cells.set r.2.1 none = _
  rw [h2, ← hlen, List.set_append_right _ _ (le_refl _), Nat.sub_self, List.set_cons_zero]
  rfl

theorem build_cmd_short (cfg : Config) (os : Oracle) (argv : List String)
    (h : argv.length ≤ 14) :
    (build_cmd cfg os argv).2 = [] ∧
    vector_of (build_cmd cfg os argv).1.cells = cfg.MINIO :: argv := by
  obtain ⟨h1, suf, h2⟩ := build_cmd_cells cfg os argv
  refine ⟨by rw [h1]; exact List.drop_of_length_le h, ?_⟩
  rw [h2, vector_of_map_some_none, List.take_of_length_le h]

theorem build_cmd_long (cfg : Config) (os : Oracle) (argv : List String)
    (h : 14 < argv.length) : (build_cmd cfg os argv).2 ≠ [] := by
  rw [(build_cmd_cells cfg os argv).1]
  intro e
  have := congrArg List.length e
  simp at this
  omega

/-! ## Properties of the option loop -/

theorem getopt_opt_length {args : List String} {c : Char} {v : String} {rest : List String}
    (h : getopt args = .opt c v rest) : rest.length < args.length := by
  unfold getopt at h
  split at h
  · simp at h
  · split at h
    · simp at h
    · split at h
      · split at h
        · split at h
          · simp at h; obtain ⟨-, -, rfl⟩ := h; simp
          · split at h
            · simp at h
            · simp at h; obtain ⟨-, -, rfl⟩ := h; simp; omega
        · simp at h
      · simp at h

theorem getopt_loop_fuel_irrelevant (f1 : Nat) :
    ∀ (f2 : Nat) (args : List String) (u g : Option String),
      args.length < f1 → args.length < f2 →
      getopt_loop f1 args u g = getopt_loop f2 args u g := by
  induction f1 with
  | zero => intro f2 args u g h1; omega
  | succ n ih =>
    intro f2 args u g h1 h2
    cases f2 with
    | zero => omega
    | succ m =>
      unfold getopt_loop
      cases hg : getopt args with
      | done rest => rfl
      | err => rfl
      | opt ch v rest =>
        have hl := getopt_opt_length hg
        simp only []
        rw [ih m rest (some v) g (by omega) (by omega), ih m rest u (some v) (by omega) (by omega)]

theorem getopt_loop_unfold (args : List String) (u g : Option String) :
    getopt_loop (args.length + 1) args u g =
      match getopt args with
      | .done rest => some (u, g, rest)
      | .opt ch optarg rest =>
        if ch = 'u' then getopt_loop (rest.length + 1) rest (some optarg) g
        else if ch = 'g' then getopt_loop (rest.length + 1) rest u (some optarg)
        else none
      | .err => none := by
  conv_lhs => unfold getopt_loop
  cases hg : getopt args with
  | done rest => rfl
  | err => rfl
  | opt ch v rest =>
    have hl := getopt_opt_length hg
    simp only []
    rw [getopt_loop_fuel_irrelevant args.length (rest.length + 1) rest (some v) g hl (by omega),
      getopt_loop_fuel_irrelevant args.length (rest.length + 1) rest u (some v) hl (by omega)]

/-! ## The shape of a run -/

theorem main_of_gates (cfg : Config) (os : Oracle) (argv : List String)
    (user : String) (group : Option String) (arg0 : String) (rest : List String)
    (hcaller : os.getuid = cfg.LENTICULARIS)
    (hparse : parse_options argv = some (some user, group, arg0 :: rest))
    (hcmd : arg0 = cfg.MINIO) :
    main cfg os argv = resolve cfg os user group rest := by
  have h1 := (check_allowed_base_user_none_iff cfg os.getuid).mpr hcaller
  have h2 := (cechk_allowed_command_none_iff cfg arg0).mpr hcmd
  simp only [main, h1, hparse, h2]

theorem main_event_inv (cfg : Config) (os : Oracle) (argv : List String)
    (h : (main cfg os argv).trace ≠ []) :
    os.getuid = cfg.LENTICULARIS ∧
    ∃ user group rest, parse_options argv = some (some user, group, cfg.MINIO :: rest) ∧
      main cfg os argv = resolve cfg os user group rest := by
  unfold main at h ⊢
  split at h
  · simp at h
  · rename_i h1
    split at h
    · simp at h
    · rename_i user group rest hp
      split at h
      · simp at h
      · split at h
        · simp at h
        · rename_i arg0 rest
          split at h
          · simp at h
          · rename_i h2
            have hc := (check_allowed_base_user_none_iff _ _).mp h1
            have hm := (cechk_allowed_command_none_iff _ _).mp h2
            subst hm
            refine ⟨hc, _, _, _, hp, ?_⟩
            simp only [h1, hp, h2]

theorem drop_user_trace (cfg : Config) (os : Oracle) (tr : List Event) (pwd : Passwd)
    (cmd : Buf) :
    ∃ post, (drop_user cfg os tr pwd cmd).trace = tr ++ .setuid pwd.pw_uid :: post ∧
      (post = [] ∨ post = [.execve cfg.MINIO (vector_of cmd.cells) os.environ]) ∧
      (post ≠ [] → os.setuid pwd.pw_uid = true) := by
  unfold drop_user
  by_cases h1 : os.setuid pwd.pw_uid = false
  · exact ⟨[], by simp [h1], Or.inl rfl, by simp⟩
  · have h1t : os.setuid pwd.pw_uid = true := by simpa using h1
    by_cases h2 : os.execve cfg.MINIO (vector_of cmd.cells) os.environ = true
    · exact ⟨[.execve cfg.MINIO (vector_of cmd.cells) os.environ], by simp [h1, h2],
        Or.inr rfl, fun _ => h1t⟩
    · exact ⟨[.execve cfg.MINIO (vector_of cmd.cells) os.environ], by simp [h1, h2],
        Or.inr rfl, fun _ => h1t⟩

theorem handoff_long (cfg : Config) (os : Oracle) (tr : List Event) (pwd : Passwd)
    (grp : Option Group) (argv : List String) (h : 14 < argv.length) :
    handoff cfg os tr pwd grp argv = ⟨tr, .exit 4⟩ := by
  have hl := build_cmd_long cfg os argv h
  unfold handoff
  generalize build_cmd cfg os argv = p at hl
  obtain ⟨cmd, rest⟩ := p
  cases rest with
  | nil => exact absurd rfl hl
  | cons a rest => rfl

theorem handoff_short (cfg : Config) (os : Oracle) (tr : List Event) (pwd : Passwd)
    (grp : Option Group) (argv : List String) (h : argv.length ≤ 14) :
    handoff cfg os tr pwd grp argv =
      match grp with
      | some g =>
        if os.setgid g.gr_gid = false then ⟨tr ++ [.setgid g.gr_gid], .exit 5⟩
        else drop_user cfg os (tr ++ [.setgid g.gr_gid]) pwd (build_cmd cfg os argv).1
      | none => drop_user cfg os tr pwd (build_cmd cfg os argv).1 := by
  have hl := (build_cmd_short cfg os argv h).1
  unfold handoff
  generalize build_cmd cfg os argv = p at hl
  obtain ⟨cmd, rest⟩ := p
  cases rest with
  | nil => rfl
  | cons a rest => exact absurd hl (by simp)

theorem resolve_action_inv (cfg : Config) (os : Oracle) (user : String)
    (group : Option String) (rest : List String) (e : Event)
    (he : e ∈ (resolve cfg os user group rest).trace) (ha : e.isAction = true) :
    ∃ pwd, os.getpwnam user = some pwd ∧ pwd.pw_uid ∉ cfg.DENIED_USERS ∧
      check_allowed_groups cfg pwd.pw_gid = none ∧ rest.length ≤ 14 ∧
      ((group = none ∧
          resolve cfg os user group rest = handoff cfg os [.getpwnam user] pwd none rest) ∨
        ∃ g r, group = some g ∧ os.getgrnam g = some r ∧
          resolve cfg os user group rest =
            handoff cfg os [.getpwnam user, .getgrnam g] pwd (some r) rest) := by
  have key : ∀ (tr : List Event) (st : Nat), (∀ x ∈ tr, x.isAction = false) →
      e ∈ (Run.mk tr (.exit st)).trace → False := by
    intro tr st hall hmem
    have := hall e hmem
    rw [ha] at this
    exact Bool.noConfusion this
  have hlen : ∀ (tr : List Event) (pwd : Passwd) (grp : Option Group),
      (∀ x ∈ tr, x.isAction = false) → e ∈ (handoff cfg os tr pwd grp rest).trace →
      rest.length ≤ 14 := by
    intro tr pwd grp hall hmem
    by_contra hgt
    rw [handoff_long cfg os tr pwd grp rest (by omega)] at hmem
    exact key tr 4 hall hmem
  unfold resolve at he ⊢
  split at he
  · exact (key _ _ (by simp [Event.isAction]) he).elim
  · rename_i pwd hpw
    split at he
    · exact (key _ _ (by simp [Event.isAction]) he).elim
    · rename_i hden
      split at he
      · exact (key _ _ (by simp [Event.isAction]) he).elim
      · rename_i hgrp
        have hnot : pwd.pw_uid ∉ cfg.DENIED_USERS :=
          (check_allowed_users_loop_none_iff _ _).mp hden
        split at he
        · refine ⟨pwd, hpw, hnot, hgrp, hlen _ pwd none (by simp [Event.isAction]) he, ?_⟩
          left
          simp only [hpw, hden, hgrp, and_self]
        · rename_i g
          split at he
          · exact (key _ _ (by simp [Event.isAction]) he).elim
          · rename_i r hr
            refine ⟨pwd, hpw, hnot, hgrp, hlen _ pwd (some r) (by simp [Event.isAction]) he, ?_⟩
            right
            exact ⟨g, r, rfl, hr, by simp only [hpw, hden, hgrp, hr]⟩

theorem resolve_of_gates (cfg : Config) (os : Oracle) (user : String)
    (group : Option String) (rest : List String) (pwd : Passwd)
    (hpw : os.getpwnam user = some pwd) (hden : pwd.pw_uid ∉ cfg.DENIED_USERS)
    (hgrp : check_allowed_groups cfg pwd.pw_gid = none) :
    resolve cfg os user group rest =
      match group with
      | none => handoff cfg os [.getpwnam user] pwd none rest
      | some g =>
        match os.getgrnam g with
        | none => ⟨[.getpwnam user, .getgrnam g], .exit 3⟩
        | some grp => handoff cfg os [.getpwnam user, .getgrnam g] pwd (some grp) rest := by
  have hu : check_allowed_users cfg pwd.pw_uid = none :=
    (check_allowed_users_loop_none_iff _ _).mpr hden
  simp only [resolve, hpw, hu, hgrp]

/-! ## The caller gate -/

/-- C1: when the real uid of the caller is not the compiled-in operator id,
`main` ends with exit status 249 whatever the arguments are, and its trace is
empty: no `getpwnam`, `getgrnam`, `setgid`, `setuid` or `execve` was called. -/
theorem main_rejects_other_caller (cfg : Config) (os : Oracle) (argv : List String)
    (h : os.getuid ≠ cfg.LENTICULARIS) :
    (main cfg os argv).outcome = .exit 249 ∧ (main cfg os argv).trace = [] := by
  have h1 : check_allowed_base_user cfg os.getuid = some 249 :=
    (check_allowed_base_user_some_iff _ _ _).mpr ⟨h, rfl⟩
  simp only [main, h1, and_self]

theorem main_rejects_other_caller_witness :
    (scenario_os 4242 true).getuid ≠ scenario_cfg.LENTICULARIS ∧
    (main scenario_cfg (scenario_os 4242 true) ["suminio", "-x", "-u"]).outcome = .exit 249 ∧
    (main scenario_cfg (scenario_os 4242 true) ["suminio", "-x", "-u"]).trace = [] :=
  ⟨by decide,
    main_rejects_other_caller scenario_cfg (scenario_os 4242 true) ["suminio", "-x", "-u"]
      (by decide)⟩

/-! ## Nothing happens before all gates have passed -/

/-- C2: if the trace of `main` contains a `setuid` or an `execve`, then the
caller is the operator, `-u` was given, the command argument is the compiled-in
path, the user was found, its uid is not in the denylist, its primary gid
passed `check_allowed_groups`, there are at most `nelems(cmd) - 2` trailing
arguments, and a group given with `-g` was found and `setgid` to it was called
and succeeded; and if the trace contains an `execve`, `setuid` to the uid of
the user succeeded. -/
theorem main_acts_only_after_all_gates (cfg : Config) (os : Oracle) (argv : List String)
    (h : (∃ uid, Event.setuid uid ∈ (main cfg os argv).trace) ∨
      (∃ p a e, Event.execve p a e ∈ (main cfg os argv).trace)) :
    os.getuid = cfg.LENTICULARIS ∧
    ∃ user group rest pwd,
      parse_options argv = some (some user, group, cfg.MINIO :: rest) ∧
      os.getpwnam user = some pwd ∧
      pwd.pw_uid ∉ cfg.DENIED_USERS ∧
      check_allowed_groups cfg pwd.pw_gid = none ∧
      rest.length ≤ nelems_cmd - 2 ∧
      (∀ g, group = some g → ∃ grp, os.getgrnam g = some grp ∧
        os.setgid grp.gr_gid = true ∧ Event.setgid grp.gr_gid ∈ (main cfg os argv).trace) ∧
      ((∃ p a e, Event.execve p a e ∈ (main cfg os argv).trace) →
        os.setuid pwd.pw_uid = true) := by
  obtain ⟨e, he, ha, hkind⟩ : ∃ e, e ∈ (main cfg os argv).trace ∧ e.isAction = true ∧
      ((∃ uid, e = .setuid uid) ∨ ∃ p a v, e = .execve p a v) := by
    rcases h with ⟨uid, hu⟩ | ⟨p, a, v, hx⟩
    · exact ⟨_, hu, rfl, Or.inl ⟨uid, rfl⟩⟩
    · exact ⟨_, hx, rfl, Or.inr ⟨p, a, v, rfl⟩⟩
  obtain ⟨hcaller, user, group, rest, hparse, hmain⟩ :=
    main_event_inv cfg os argv (List.ne_nil_of_mem he)
  rw [hmain] at he ⊢
  obtain ⟨pwd, hpw, hden, hgrp, hlen, hres⟩ := resolve_action_inv cfg os user group rest e he ha
  refine ⟨hcaller, user, group, rest, pwd, hparse, hpw, hden, hgrp, hlen, ?_⟩
  rcases hres with ⟨hnone, hrun⟩ | ⟨g, r, hsome, hr, hrun⟩
  · rw [hrun, handoff_short cfg os _ pwd none rest hlen]
    obtain ⟨post, htr, hpost, hsu⟩ := drop_user_trace cfg os [.getpwnam user] pwd
      (build_cmd cfg os rest).1
    refine ⟨fun g hg => by rw [hnone] at hg; exact Option.noConfusion hg, ?_⟩
    rintro ⟨p, a, v, hx⟩
    apply hsu
    simp only [htr] at hx
    rintro rfl
    simp at hx
  · rw [hrun, handoff_short cfg os _ pwd (some r) rest hlen] at he ⊢
    simp only at he ⊢
    by_cases hsg : os.setgid r.gr_gid = false
    · exfalso
      rw [if_pos hsg] at he
      rcases hkind with ⟨uid, rfl⟩ | ⟨p, a, v, rfl⟩ <;> simp at he
    · rw [if_neg hsg]
      obtain ⟨post, htr, hpost, hsu⟩ := drop_user_trace cfg os
        ([.getpwnam user, .getgrnam g] ++ [.setgid r.gr_gid]) pwd (build_cmd cfg os rest).1
      refine ⟨fun g2 hg => ?_, ?_⟩
      · rw [hsome] at hg
        cases hg
        exact ⟨r, hr, by simpa using hsg, by rw [htr]; simp⟩
      · rintro ⟨p, a, v, hx⟩
        apply hsu
        simp only [htr] at hx
        rintro rfl
        simp at hx

theorem main_acts_only_after_all_gates_witness :
    ((∃ uid, Event.setuid uid ∈ (main scenario_cfg (scenario_os 1000 true) scenario_argv).trace) ∨
      (∃ p a e,
        Event.execve p a e ∈ (main scenario_cfg (scenario_os 1000 true) scenario_argv).trace)) ∧
    ((scenario_os 1000 true).getuid = scenario_cfg.LENTICULARIS ∧
    ∃ user group rest pwd,
      parse_options scenario_argv = some (some user, group, scenario_cfg.MINIO :: rest) ∧
      (scenario_os 1000 true).getpwnam user = some pwd ∧
      pwd.pw_uid ∉ scenario_cfg.DENIED_USERS ∧
      check_allowed_groups scenario_cfg pwd.pw_gid = none ∧
      rest.length ≤ nelems_cmd - 2 ∧
      (∀ g, group = some g → ∃ grp, (scenario_os 1000 true).getgrnam g = some grp ∧
        (scenario_os 1000 true).setgid grp.gr_gid = true ∧
        Event.setgid grp.gr_gid ∈
          (main scenario_cfg (scenario_os 1000 true) scenario_argv).trace) ∧
      ((∃ p a e, Event.execve p a e ∈
          (main scenario_cfg (scenario_os 1000 true) scenario_argv).trace) →
        (scenario_os 1000 true).setuid pwd.pw_uid = true)) :=
  ⟨Or.inl ⟨2000, by decide⟩,
    main_acts_only_after_all_gates scenario_cfg (scenario_os 1000 true) scenario_argv
      (Or.inl ⟨2000, by decide⟩)⟩

/-! ## The command gate -/

/-- C3: when the operator calls `main` with `-u` and a command argument, and
the command argument is not equal to the compiled-in path, `main` ends with
exit status 250 and its trace is empty: no user or group was looked up. -/
theorem main_rejects_other_command (cfg : Config) (os : Oracle) (argv : List String)
    (user : String) (group : Option String) (arg0 : String) (rest : List String)
    (hcaller : os.getuid = cfg.LENTICULARIS)
    (hparse : parse_options argv = some (some user, group, arg0 :: rest))
    (hne : arg0 ≠ cfg.MINIO) :
    (main cfg os argv).outcome = .exit 250 ∧ (main cfg os argv).trace = [] := by
  have h1 := (check_allowed_base_user_none_iff cfg os.getuid).mpr hcaller
  have h2 : cechk_allowed_command cfg arg0 = some 250 :=
    (cechk_allowed_command_some_iff _ _ _).mpr ⟨hne, rfl⟩
  simp only [main, h1, hparse, h2, and_self]

theorem main_rejects_other_command_witness :
    ((scenario_os 1000 true).getuid = scenario_cfg.LENTICULARIS ∧
      parse_options ["suminio", "-u", "svc", "/usr/bin/mini", "server"] =
        some (some "svc", none, "/usr/bin/mini" :: ["server"]) ∧
      "/usr/bin/mini" ≠ scenario_cfg.MINIO ∧
      (main scenario_cfg (scenario_os 1000 true)
        ["suminio", "-u", "svc", "/usr/bin/mini", "server"]).outcome = .exit 250 ∧
      (main scenario_cfg (scenario_os 1000 true)
        ["suminio", "-u", "svc", "/usr/bin/mini", "server"]).trace = []) ∧
    ((main scenario_cfg (scenario_os 1000 true)
        ["suminio", "-u", "svc", "-g", "minio", "/usr/bin/minio2"]).outcome = .exit 250 ∧
      (main scenario_cfg (scenario_os 1000 true)
        ["suminio", "-u", "svc", "-g", "minio", "/usr/bin/minio2"]).trace = []) ∧
    ((main scenario_cfg (scenario_os 1000 true)
        ["suminio", "-u", "svc", "minio"]).outcome = .exit 250 ∧
      (main scenario_cfg (scenario_os 1000 true)
        ["suminio", "-u", "svc", "minio"]).trace = []) :=
  ⟨⟨by decide, by decide, by decide,
      main_rejects_other_command scenario_cfg (scenario_os 1000 true)
        ["suminio", "-u", "svc", "/usr/bin/mini", "server"] "svc" none "/usr/bin/mini"
        ["server"] (by decide) (by decide) (by decide)⟩,
    main_rejects_other_command scenario_cfg (scenario_os 1000 true)
      ["suminio", "-u", "svc", "-g", "minio", "/usr/bin/minio2"] "svc" (some "minio")
      "/usr/bin/minio2" [] (by decide) (by decide) (by decide),
    main_rejects_other_command scenario_cfg (scenario_os 1000 true)
      ["suminio", "-u", "svc", "minio"] "svc" none "minio" [] (by decide) (by decide)
      (by decide)⟩

/-! ## The denylist gate -/

/-- C4: when the caller, usage and command gates pass and the user named by
`-u` has a uid that is in the denylist, `main` ends with exit status 251,
whatever the primary gid of the user, the `-g` option and the trailing
arguments are; the only call made is the `getpwnam` of the user, so there is
no `setgid`, `setuid` or `execve`. -/
theorem main_rejects_denied_user (cfg : Config) (os : Oracle) (argv : List String)
    (user : String) (group : Option String) (rest : List String) (pwd : Passwd)
    (hcaller : os.getuid = cfg.LENTICULARIS)
    (hparse : parse_options argv = some (some user, group, cfg.MINIO :: rest))
    (hpw : os.getpwnam user = some pwd)
    (hden : pwd.pw_uid ∈ cfg.DENIED_USERS) :
    (main cfg os argv).outcome = .exit 251 ∧
    (main cfg os argv).trace = [.getpwnam user] := by
  have hu : check_allowed_users cfg pwd.pw_uid = some 251 :=
    (check_allowed_users_loop_some_iff _ _ _).mpr ⟨hden, rfl⟩
  rw [main_of_gates cfg os argv user group cfg.MINIO rest hcaller hparse rfl]
  simp only [resolve, hpw, hu, and_self]

theorem main_rejects_denied_user_witness :
    (scenario_os 1000 true).getuid = scenario_cfg.LENTICULARIS ∧
    parse_options ["suminio", "-u", "root", "-g", "minio", "/usr/bin/minio", "server"] =
      some (some "root", some "minio", scenario_cfg.MINIO :: ["server"]) ∧
    (scenario_os 1000 true).getpwnam "root" = some ⟨0, 200⟩ ∧
    (0 : Nat) ∈ scenario_cfg.DENIED_USERS ∧
    (200 : Nat) ∈ scenario_cfg.ALLOWED_GROPUS ∧
    (main scenario_cfg (scenario_os 1000 true)
      ["suminio", "-u", "root", "-g", "minio", "/usr/bin/minio", "server"]).outcome
        = .exit 251 ∧
    (main scenario_cfg (scenario_os 1000 true)
      ["suminio", "-u", "root", "-g", "minio", "/usr/bin/minio", "server"]).trace
        = [.getpwnam "root"] :=
  ⟨by decide, by decide, by decide, by decide, by decide,
    main_rejects_denied_user scenario_cfg (scenario_os 1000 true)
      ["suminio", "-u", "root", "-g", "minio", "/usr/bin/minio", "server"] "root"
      (some "minio") ["server"] ⟨0, 200⟩ (by decide) (by decide) (by decide) (by decide)⟩

/-! ## The allowlist gate -/

theorem check_allowed_groups_none_iff (cfg : Config) (gid : Nat) :
    check_allowed_groups cfg gid = none ↔ ∀ a ∈ cfg.ALLOWED_GROPUS, a = gid :=
  check_allowed_groups_loop_none_iff gid cfg.ALLOWED_GROPUS

theorem check_allowed_groups_some_iff (cfg : Config) (gid st : Nat) :
    check_allowed_groups cfg gid = some st ↔
      (∃ a ∈ cfg.ALLOWED_GROPUS, a ≠ gid) ∧ st = 252 :=
  check_allowed_groups_loop_some_iff gid st cfg.ALLOWED_GROPUS

/-- C5: `check_allowed_groups` does not accept the members of the allowlist.
With the two allowed groups 200 and 300, in either order, the function ends the
process with status 252 for the gid 200, which is in the list, and `main` run
for the user `svc` (uid 2000, gid 200) ends with status 252 after the lookup of
the user instead of reaching `execve`. -/
theorem check_allowed_groups_rejects_member :
    (200 : Nat) ∈ two_groups_cfg.ALLOWED_GROPUS ∧
    check_allowed_groups two_groups_cfg 200 = some 252 ∧
    check_allowed_groups two_groups_swapped_cfg 200 = some 252 ∧
    main two_groups_cfg (scenario_os 1000 true)
        ["suminio", "-u", "svc", "/usr/bin/minio", "server", "/data"] =
      ⟨[.getpwnam "svc"], .exit 252⟩ := by
  decide

/-- C6: with an empty allowlist `check_allowed_groups` lets every gid pass.
The gid 300 of the user `guest` is not in the empty list, yet
`check_allowed_groups` returns and `main` goes on to `setuid` and `execve`
instead of ending with status 252. -/
theorem main_empty_allowlist_admits_any_group :
    (300 : Nat) ∉ no_group_cfg.ALLOWED_GROPUS ∧
    (300 : Nat) ∉ no_group_cfg.DENIED_USERS ∧
    check_allowed_groups no_group_cfg 300 = none ∧
    main no_group_cfg (scenario_os 1000 true)
        ["suminio", "-u", "guest", "/usr/bin/minio", "server"] =
      ⟨[.getpwnam "guest", .setuid 3000,
          .execve "/usr/bin/minio" ["/usr/bin/minio", "server"] ["PATH=/usr/bin"]],
        .exec "/usr/bin/minio" ["/usr/bin/minio", "server"] ["PATH=/usr/bin"]⟩ := by
  decide

/-- When the allowlist is not empty, a primary gid that is not in it is
rejected with status 252 right after the lookup of the user. -/
theorem main_rejects_nonmember_of_nonempty_allowlist (cfg : Config) (os : Oracle)
    (argv : List String) (user : String) (group : Option String) (rest : List String)
    (pwd : Passwd)
    (hcaller : os.getuid = cfg.LENTICULARIS)
    (hparse : parse_options argv = some (some user, group, cfg.MINIO :: rest))
    (hpw : os.getpwnam user = some pwd)
    (hden : pwd.pw_uid ∉ cfg.DENIED_USERS)
    (hne : cfg.ALLOWED_GROPUS ≠ [])
    (hnot : pwd.pw_gid ∉ cfg.ALLOWED_GROPUS) :
    (main cfg os argv).outcome = .exit 252 ∧
    (main cfg os argv).trace = [.getpwnam user] := by
  have hu : check_allowed_users cfg pwd.pw_uid = none :=
    (check_allowed_users_loop_none_iff _ _).mpr hden
  obtain ⟨a, ha⟩ := List.exists_mem_of_ne_nil _ hne
  have hg : check_allowed_groups cfg pwd.pw_gid = some 252 :=
    (check_allowed_groups_some_iff _ _ _).mpr
      ⟨⟨a, ha, fun e => hnot (e ▸ ha)⟩, rfl⟩
  rw [main_of_gates cfg os argv user group cfg.MINIO rest hcaller hparse rfl]
  simp only [resolve, hpw, hu, hg, and_self]

theorem handoff_outcome (cfg : Config) (os : Oracle) (tr : List Event) (pwd : Passwd)
    (grp : Option Group) (argv : List String) :
    (∃ st, (handoff cfg os tr pwd grp argv).outcome = .exit st ∧
      (st = 4 ∨ st = 5 ∨ st = 6 ∨ st = 126)) ∨
    ∃ p a v, (handoff cfg os tr pwd grp argv).outcome = .exec p a v := by
  have hd : ∀ (t : List Event) (c : Buf),
      (∃ st, (drop_user cfg os t pwd c).outcome = .exit st ∧
        (st = 4 ∨ st = 5 ∨ st = 6 ∨ st = 126)) ∨
      ∃ p a v, (drop_user cfg os t pwd c).outcome = .exec p a v := by
    intro t c
    unfold drop_user
    by_cases h1 : os.setuid pwd.pw_uid = false
    · left; exact ⟨6, by simp [h1], by simp⟩
    · by_cases h2 : os.execve cfg.MINIO (vector_of c.cells) os.environ = true
      · right
        exact ⟨cfg.MINIO, vector_of c.cells, os.environ, by rw [if_neg h1, if_pos h2]⟩
      · left; exact ⟨126, by simp [h1, h2], by simp⟩
  by_cases hlen : argv.length ≤ 14
  · rw [handoff_short cfg os tr pwd grp argv hlen]
    cases grp with
    | none => exact hd _ _
    | some g =>
      simp only
      by_cases hsg : os.setgid g.gr_gid = false
      · left; exact ⟨5, by simp [hsg], by simp⟩
      · rw [if_neg hsg]; exact hd _ _
  · rw [handoff_long cfg os tr pwd grp argv (by omega)]
    left; exact ⟨4, rfl, by simp⟩

/-- C7 as stated fails: the group `wheel` given with `-g` has gid 10, which is
not in the allowlist `[200]`, all earlier gates pass, and `main` neither ends
with status 252 nor refrains from `setgid(10)`: it calls `setgid(10)` and goes
on to `execve`. -/
theorem main_group_option_not_on_allowlist_accepted :
    (scenario_os 1000 true).getuid = scenario_cfg.LENTICULARIS ∧
    parse_options ["suminio", "-u", "svc", "-g", "wheel", "/usr/bin/minio"] =
      some (some "svc", some "wheel", [scenario_cfg.MINIO]) ∧
    (scenario_os 1000 true).getpwnam "svc" = some ⟨2000, 200⟩ ∧
    (2000 : Nat) ∉ scenario_cfg.DENIED_USERS ∧
    (scenario_os 1000 true).getgrnam "wheel" = some ⟨10⟩ ∧
    (10 : Nat) ∉ scenario_cfg.ALLOWED_GROPUS ∧
    ¬ ((main scenario_cfg (scenario_os 1000 true)
          ["suminio", "-u", "svc", "-g", "wheel", "/usr/bin/minio"]).outcome = .exit 252 ∧
        Event.setgid 10 ∉ (main scenario_cfg (scenario_os 1000 true)
          ["suminio", "-u", "svc", "-g", "wheel", "/usr/bin/minio"]).trace) ∧
    main scenario_cfg (scenario_os 1000 true)
        ["suminio", "-u", "svc", "-g", "wheel", "/usr/bin/minio"] =
      ⟨[.getpwnam "svc", .getgrnam "wheel", .setgid 10, .setuid 2000,
          .execve "/usr/bin/minio" ["/usr/bin/minio"] ["PATH=/usr/bin"]],
        .exec "/usr/bin/minio" ["/usr/bin/minio"] ["PATH=/usr/bin"]⟩ := by
  decide

/-- C7, amended: a group given with `-g` is not checked against the allowlist.
When the caller, usage, command, user-resolution and denylist gates pass, the
primary gid of the target user passes `check_allowed_groups` and the group
given with `-g` is found, then, whether the gid of that group is in the
allowlist or not, `main` does not end with status 252, and when there are at
most `nelems(cmd) - 2` trailing arguments it calls `setgid` with that gid. -/
theorem main_allowlist_ignores_group_option (cfg : Config) (os : Oracle)
    (argv : List String) (user g : String) (rest : List String)
    (pwd : Passwd) (grp : Group)
    (hcaller : os.getuid = cfg.LENTICULARIS)
    (hparse : parse_options argv = some (some user, some g, cfg.MINIO :: rest))
    (hpw : os.getpwnam user = some pwd)
    (hden : pwd.pw_uid ∉ cfg.DENIED_USERS)
    (hgate : check_allowed_groups cfg pwd.pw_gid = none)
    (hgr : os.getgrnam g = some grp) :
    (main cfg os argv).outcome ≠ .exit 252 ∧
    (rest.length ≤ nelems_cmd - 2 →
      Event.setgid grp.gr_gid ∈ (main cfg os argv).trace) := by
  have hrun : main cfg os argv =
      handoff cfg os [.getpwnam user, .getgrnam g] pwd (some grp) rest := by
    rw [main_of_gates cfg os argv user (some g) cfg.MINIO rest hcaller hparse rfl,
      resolve_of_gates cfg os user (some g) rest pwd hpw hden hgate]
    simp only [hgr]
  rw [hrun]
  constructor
  · intro e
    rcases handoff_outcome cfg os [.getpwnam user, .getgrnam g] pwd (some grp) rest with
      ⟨st, h1, h2⟩ | ⟨p, a, v, h1⟩
    · rw [h1] at e
      injection e with e
      omega
    · rw [h1] at e
      exact Outcome.noConfusion e
  · intro hlen
    rw [handoff_short cfg os _ pwd (some grp) rest hlen]
    simp only
    by_cases hsg : os.setgid grp.gr_gid = false
    · rw [if_pos hsg]; simp
    · rw [if_neg hsg]
      obtain ⟨post, htr, -, -⟩ := drop_user_trace cfg os
        ([.getpwnam user, .getgrnam g] ++ [.setgid grp.gr_gid]) pwd (build_cmd cfg os rest).1
      rw [htr]; simp

theorem main_allowlist_ignores_group_option_witness :
    (scenario_os 1000 true).getuid = scenario_cfg.LENTICULARIS ∧
    parse_options ["suminio", "-u", "svc", "-g", "wheel", "/usr/bin/minio", "server"] =
      some (some "svc", some "wheel", scenario_cfg.MINIO :: ["server"]) ∧
    (scenario_os 1000 true).getpwnam "svc" = some ⟨2000, 200⟩ ∧
    (2000 : Nat) ∉ scenario_cfg.DENIED_USERS ∧
    check_allowed_groups scenario_cfg 200 = none ∧
    (scenario_os 1000 true).getgrnam "wheel" = some ⟨10⟩ ∧
    (10 : Nat) ∉ scenario_cfg.ALLOWED_GROPUS ∧
    ["server"].length ≤ nelems_cmd - 2 ∧
    (main scenario_cfg (scenario_os 1000 true)
      ["suminio", "-u", "svc", "-g", "wheel", "/usr/bin/minio", "server"]).outcome
        ≠ .exit 252 ∧
    Event.setgid 10 ∈ (main scenario_cfg (scenario_os 1000 true)
      ["suminio", "-u", "svc", "-g", "wheel", "/usr/bin/minio", "server"]).trace :=
  ⟨by decide, by decide, by decide, by decide, by decide, by decide, by decide, by decide,
    (main_allowlist_ignores_group_option scenario_cfg (scenario_os 1000 true)
      ["suminio", "-u", "svc", "-g", "wheel", "/usr/bin/minio", "server"] "svc" "wheel"
      ["server"] ⟨2000, 200⟩ ⟨10⟩ (by decide) (by decide) (by decide) (by decide) (by decide)
      (by decide)).1,
    (main_allowlist_ignores_group_option scenario_cfg (scenario_os 1000 true)
      ["suminio", "-u", "svc", "-g", "wheel", "/usr/bin/minio", "server"] "svc" "wheel"
      ["server"] ⟨2000, 200⟩ ⟨10⟩ (by decide) (by decide) (by decide) (by decide) (by decide)
      (by decide)).2 (by decide)⟩

/-! ## The order of the privilege transition -/

theorem main_group_run (cfg : Config) (os : Oracle) (argv : List String)
    (user : Option String) (g : String) (rest : List String) (grp : Group)
    (hparse : parse_options argv = some (user, some g, rest))
    (hgr : os.getgrnam g = some grp) :
    (∀ e ∈ (main cfg os argv).trace, e.isAction = false) ∨
    ∃ u pwd cmd, main cfg os argv =
      if os.setgid grp.gr_gid = false then
        ⟨[.getpwnam u, .getgrnam g, .setgid grp.gr_gid], .exit 5⟩
      else drop_user cfg os [.getpwnam u, .getgrnam g, .setgid grp.gr_gid] pwd cmd := by
  by_cases h : ∀ e ∈ (main cfg os argv).trace, e.isAction = false
  · exact Or.inl h
  · right
    push_neg at h
    obtain ⟨e, he, ha⟩ := h
    have ha : e.isAction = true := by simpa using ha
    obtain ⟨-, u, group, rest2, hp, hmain⟩ :=
      main_event_inv cfg os argv (List.ne_nil_of_mem he)
    rw [hparse] at hp
    simp only [Option.some.injEq, Prod.mk.injEq] at hp
    obtain ⟨-, hgroup, -⟩ := hp
    rw [hmain] at he ⊢
    obtain ⟨pwd, -, -, -, hlen, hres⟩ := resolve_action_inv cfg os u group rest2 e he ha
    rcases hres with ⟨hnone, -⟩ | ⟨g2, r, hsome, hr, hrun⟩
    · rw [← hgroup] at hnone
      exact Option.noConfusion hnone
    · rw [← hgroup] at hsome
      cases hsome
      rw [hgr] at hr
      cases hr
      refine ⟨u, pwd, (build_cmd cfg os rest2).1, ?_⟩
      rw [hrun, handoff_short cfg os _ pwd (some grp) rest2 hlen]
      rfl

/-- C8: when `-g` was given and the group was found, every `setuid` in the
trace of `main` comes right after the `setgid` to the gid of that group, which
succeeded, with nothing but lookups before the two; and if `setgid` to that
gid fails, the trace contains neither a `setuid` nor an `execve`, and a run
that called `setgid` ends with exit status 5. -/
theorem main_setgid_before_setuid (cfg : Config) (os : Oracle) (argv : List String)
    (user : Option String) (g : String) (rest : List String) (grp : Group)
    (hparse : parse_options argv = some (user, some g, rest))
    (hgr : os.getgrnam g = some grp) :
    (os.setgid grp.gr_gid = false →
      (∀ e ∈ (main cfg os argv).trace,
        (∀ uid, e ≠ .setuid uid) ∧ ∀ p a v, e ≠ .execve p a v) ∧
      (Event.setgid grp.gr_gid ∈ (main cfg os argv).trace →
        (main cfg os argv).outcome = .exit 5)) ∧
    (∀ uid, Event.setuid uid ∈ (main cfg os argv).trace →
      os.setgid grp.gr_gid = true ∧
      ∃ pre post, (main cfg os argv).trace =
          pre ++ [.setgid grp.gr_gid, .setuid uid] ++ post ∧
        (∀ e ∈ pre, e.isLookup = true) ∧
        (∀ e ∈ post, ∃ p a v, e = .execve p a v)) := by
  rcases main_group_run cfg os argv user g rest grp hparse hgr with hno | ⟨u, pwd, cmd, hrun⟩
  · refine ⟨fun _ => ⟨fun e he => ⟨?_, ?_⟩, fun hin => ?_⟩, fun uid hin => ?_⟩
    · rintro uid rfl
      exact Bool.noConfusion (hno _ he)
    · rintro p a v rfl
      exact Bool.noConfusion (hno _ he)
    · exact Bool.noConfusion (hno _ hin)
    · exact Bool.noConfusion (hno _ hin)
  · rw [hrun]
    by_cases hsg : os.setgid grp.gr_gid = false
    · rw [if_pos hsg]
      refine ⟨fun _ => ⟨fun e he => ?_, fun _ => rfl⟩, fun uid hin => ?_⟩
      · simp only [List.mem_cons, List.mem_singleton, List.not_mem_nil, or_false] at he
        rcases he with rfl | rfl | rfl <;> simp
      · simp at hin
    · rw [if_neg hsg]
      have hsgt : os.setgid grp.gr_gid = true := by simpa using hsg
      obtain ⟨post, htr, hpost, -⟩ := drop_user_trace cfg os
        [.getpwnam u, .getgrnam g, .setgid grp.gr_gid] pwd cmd
      refine ⟨fun hf => absurd hf hsg, fun uid hin => ⟨hsgt, ?_⟩⟩
      have huid : uid = pwd.pw_uid := by
        rw [htr] at hin
        rcases hpost with rfl | rfl <;> simpa using hin
      subst huid
      refine ⟨[.getpwnam u, .getgrnam g], post, ?_, ?_, ?_⟩
      · rw [htr]; simp
      · intro e he
        simp only [List.mem_cons, List.mem_singleton, List.not_mem_nil, or_false] at he
        rcases he with rfl | rfl <;> rfl
      · intro e he
        rcases hpost with rfl | rfl
        · simp at he
        · simp only [List.mem_singleton] at he
          exact ⟨_, _, _, he⟩

theorem main_setgid_before_setuid_witness :
    parse_options scenario_argv =
      some (some "svc", some "minio", ["/usr/bin/minio", "server", "/data"]) ∧
    (scenario_os 1000 false).getgrnam "minio" = some ⟨200⟩ ∧
    (scenario_os 1000 false).setgid 200 = false ∧
    Event.setgid 200 ∈ (main scenario_cfg (scenario_os 1000 false) scenario_argv).trace ∧
    (((scenario_os 1000 false).setgid (⟨200⟩ : Group).gr_gid = false →
      (∀ e ∈ (main scenario_cfg (scenario_os 1000 false) scenario_argv).trace,
        (∀ uid, e ≠ .setuid uid) ∧ ∀ p a v, e ≠ .execve p a v) ∧
      (Event.setgid (⟨200⟩ : Group).gr_gid ∈
          (main scenario_cfg (scenario_os 1000 false) scenario_argv).trace →
        (main scenario_cfg (scenario_os 1000 false) scenario_argv).outcome = .exit 5)) ∧
    (∀ uid, Event.setuid uid ∈
        (main scenario_cfg (scenario_os 1000 false) scenario_argv).trace →
      (scenario_os 1000 false).setgid (⟨200⟩ : Group).gr_gid = true ∧
      ∃ pre post, (main scenario_cfg (scenario_os 1000 false) scenario_argv).trace =
          pre ++ [.setgid (⟨200⟩ : Group).gr_gid, .setuid uid] ++ post ∧
        (∀ e ∈ pre, e.isLookup = true) ∧
        (∀ e ∈ post, ∃ p a v, e = .execve p a v))) ∧
    (Event.setuid 2000 ∈ (main scenario_cfg (scenario_os 1000 true) scenario_argv).trace ∧
      (scenario_os 1000 true).setgid (⟨200⟩ : Group).gr_gid = true ∧
      ∃ pre post, (main scenario_cfg (scenario_os 1000 true) scenario_argv).trace =
          pre ++ [.setgid (⟨200⟩ : Group).gr_gid, .setuid 2000] ++ post ∧
        (∀ e ∈ pre, e.isLookup = true) ∧
        (∀ e ∈ post, ∃ p a v, e = .execve p a v)) :=
  ⟨by decide, by decide, by decide, by decide,
    main_setgid_before_setuid scenario_cfg (scenario_os 1000 false) scenario_argv
      (some "svc") "minio" ["/usr/bin/minio", "server", "/data"] ⟨200⟩ (by decide)
      (by decide),
    by decide,
    (main_setgid_before_setuid scenario_cfg (scenario_os 1000 true) scenario_argv
      (some "svc") "minio" ["/usr/bin/minio", "server", "/data"] ⟨200⟩ (by decide)
      (by decide)).2 2000 (by decide)⟩

/-! ## The bound on the number of arguments -/

/-- C9: when all identity gates pass (caller, usage, command, user lookup,
denylist, allowlist gate, and the lookup of the group if `-g` was given) and
there are more than `nelems(cmd) - 2` trailing arguments, `main` ends with exit
status 4 and its trace contains no `setgid`, `setuid` or `execve`. -/
theorem main_rejects_long_argument_list (cfg : Config) (os : Oracle) (argv : List String)
    (user : String) (group : Option String) (rest : List String) (pwd : Passwd)
    (hcaller : os.getuid = cfg.LENTICULARIS)
    (hparse : parse_options argv = some (some user, group, cfg.MINIO :: rest))
    (hpw : os.getpwnam user = some pwd)
    (hden : pwd.pw_uid ∉ cfg.DENIED_USERS)
    (hgate : check_allowed_groups cfg pwd.pw_gid = none)
    (hgr : ∀ g, group = some g → os.getgrnam g ≠ none)
    (hlen : nelems_cmd - 2 < rest.length) :
    (main cfg os argv).outcome = .exit 4 ∧
    ∀ e ∈ (main cfg os argv).trace, e.isAction = false := by
  have hlen14 : 14 < rest.length := hlen
  rw [main_of_gates cfg os argv user group cfg.MINIO rest hcaller hparse rfl,
    resolve_of_gates cfg os user group rest pwd hpw hden hgate]
  cases group with
  | none =>
    simp only
    rw [handoff_long cfg os _ pwd none rest hlen14]
    exact ⟨rfl, by simp [Event.isAction]⟩
  | some g =>
    simp only
    cases hg : os.getgrnam g with
    | none => exact absurd hg (hgr g rfl)
    | some grp =>
      simp only
      rw [handoff_long cfg os _ pwd (some grp) rest hlen14]
      exact ⟨rfl, by simp [Event.isAction]⟩

theorem main_rejects_long_argument_list_witness :
    (scenario_os 1000 true).getuid = scenario_cfg.LENTICULARIS ∧
    parse_options twenty_args_argv =
      some (some "svc", some "minio", scenario_cfg.MINIO :: twenty_args_argv.drop 6) ∧
    (twenty_args_argv.drop 6).length = 20 ∧
    (scenario_os 1000 true).getpwnam "svc" = some ⟨2000, 200⟩ ∧
    (2000 : Nat) ∉ scenario_cfg.DENIED_USERS ∧
    check_allowed_groups scenario_cfg 200 = none ∧
    (scenario_os 1000 true).getgrnam "minio" ≠ none ∧
    (main scenario_cfg (scenario_os 1000 true) twenty_args_argv).outcome = .exit 4 ∧
    ∀ e ∈ (main scenario_cfg (scenario_os 1000 true) twenty_args_argv).trace,
      e.isAction = false :=
  ⟨by decide, by decide, by decide, by decide, by decide, by decide, by decide,
    main_rejects_long_argument_list scenario_cfg (scenario_os 1000 true) twenty_args_argv
      "svc" (some "minio") (twenty_args_argv.drop 6) ⟨2000, 200⟩ (by decide) (by decide)
      (by decide) (by decide) (by decide)
      (fun g hg => by
        have hgm : g = "minio" := (Option.some.inj hg).symm
        subst hgm
        decide)
      (by decide)⟩

/-! ## The argument vector of the handoff -/

/-- C10: every `execve` in the trace of `main` is called with the compiled-in
path as program, with the vector made of the compiled-in path followed by all
the arguments that follow the command name on the command line, unchanged and
in order, and with `environ`; in the array `cmd` these strings are followed by
the `NULL` that ends the vector. -/
theorem main_execve_arguments (cfg : Config) (os : Oracle) (argv : List String)
    (p : String) (a v : List String)
    (h : Event.execve p a v ∈ (main cfg os argv).trace) :
    ∃ user group rest,
      parse_options argv = some (some user, group, cfg.MINIO :: rest) ∧
      p = cfg.MINIO ∧ a = cfg.MINIO :: rest ∧ v = os.environ ∧
      ∃ suf, (build_cmd cfg os rest).1.cells =
        (cfg.MINIO :: rest).map some ++ none :: suf := by
  obtain ⟨-, user, group, rest, hparse, hmain⟩ :=
    main_event_inv cfg os argv (List.ne_nil_of_mem h)
  rw [hmain] at h
  obtain ⟨pwd, -, -, -, hlen, hres⟩ := resolve_action_inv cfg os user group rest _ h rfl
  have hvec := (build_cmd_short cfg os rest hlen).2
  obtain ⟨-, suf, hcells⟩ := build_cmd_cells cfg os rest
  rw [List.take_of_length_le hlen] at hcells
  refine ⟨user, group, rest, hparse, ?_⟩
  have hdrop : ∀ tr : List Event, (∀ e ∈ tr, ∀ p a v, e ≠ .execve p a v) →
      Event.execve p a v ∈ (drop_user cfg os tr pwd (build_cmd cfg os rest).1).trace →
      p = cfg.MINIO ∧ a = cfg.MINIO :: rest ∧ v = os.environ := by
    intro tr htr hin
    obtain ⟨post, ht, hpost, -⟩ := drop_user_trace cfg os tr pwd (build_cmd cfg os rest).1
    rw [ht] at hin
    rw [hvec] at hpost
    rcases List.mem_append.mp hin with hin | hin
    · exact absurd rfl (htr _ hin p a v)
    · rcases hpost with rfl | rfl
      · simp at hin
      · simp only [List.mem_cons, List.mem_singleton, Event.execve.injEq] at hin
        rcases hin with hin | hin
        · exact Event.noConfusion hin
        · rcases hin with ⟨h1, h2, h3⟩ | hin
          · exact ⟨h1, h2, h3⟩
          · exact absurd hin (List.not_mem_nil _)
  suffices hgoal : p = cfg.MINIO ∧ a = cfg.MINIO :: rest ∧ v = os.environ from
    ⟨hgoal.1, hgoal.2.1, hgoal.2.2, suf, hcells⟩
  rcases hres with ⟨-, hrun⟩ | ⟨g, r, -, -, hrun⟩
  · rw [hrun, handoff_short cfg os _ pwd none rest hlen] at h
    exact hdrop _ (by simp) h
  · rw [hrun, handoff_short cfg os _ pwd (some r) rest hlen] at h
    simp only at h
    by_cases hsg : os.setgid r.gr_gid = false
    · rw [if_pos hsg] at h
      simp at h
    · rw [if_neg hsg] at h
      exact hdrop _ (by simp) h

theorem main_execve_arguments_witness :
    Event.execve "/usr/bin/minio" ["/usr/bin/minio", "server", "/data"] ["PATH=/usr/bin"] ∈
      (main scenario_cfg (scenario_os 1000 true) scenario_argv).trace ∧
    ∃ user group rest,
      parse_options scenario_argv = some (some user, group, scenario_cfg.MINIO :: rest) ∧
      "/usr/bin/minio" = scenario_cfg.MINIO ∧
      ["/usr/bin/minio", "server", "/data"] = scenario_cfg.MINIO :: rest ∧
      ["PATH=/usr/bin"] = (scenario_os 1000 true).environ ∧
      ∃ suf, (build_cmd scenario_cfg (scenario_os 1000 true) rest).1.cells =
        (scenario_cfg.MINIO :: rest).map some ++ none :: suf :=
  ⟨by decide,
    main_execve_arguments scenario_cfg (scenario_os 1000 true) scenario_argv
      "/usr/bin/minio" ["/usr/bin/minio", "server", "/data"] ["PATH=/usr/bin"] (by decide)⟩

/-! ## The lookups of the user and of the group -/

/-- C12: when the operator calls `main` with `-u` and the compiled-in command
path, and `getpwnam` finds no record for the user, `main` ends with exit status
2 whatever `-g` and the trailing arguments are; the only call made is that
`getpwnam`, so there is no `setgid`, `setuid` or `execve`. -/
theorem main_unknown_user (cfg : Config) (os : Oracle) (argv : List String)
    (user : String) (group : Option String) (rest : List String)
    (hcaller : os.getuid = cfg.LENTICULARIS)
    (hparse : parse_options argv = some (some user, group, cfg.MINIO :: rest))
    (hpw : os.getpwnam user = none) :
    (main cfg os argv).outcome = .exit 2 ∧
    (main cfg os argv).trace = [.getpwnam user] := by
  rw [main_of_gates cfg os argv user group cfg.MINIO rest hcaller hparse rfl]
  simp only [resolve, hpw, and_self]

theorem main_unknown_user_witness :
    (scenario_os 1000 true).getuid = scenario_cfg.LENTICULARIS ∧
    parse_options ["suminio", "-g", "minio", "-u", "ghost", "/usr/bin/minio", "server"] =
      some (some "ghost", some "minio", scenario_cfg.MINIO :: ["server"]) ∧
    (scenario_os 1000 true).getpwnam "ghost" = none ∧
    (main scenario_cfg (scenario_os 1000 true)
      ["suminio", "-g", "minio", "-u", "ghost", "/usr/bin/minio", "server"]).outcome
        = .exit 2 ∧
    (main scenario_cfg (scenario_os 1000 true)
      ["suminio", "-g", "minio", "-u", "ghost", "/usr/bin/minio", "server"]).trace
        = [.getpwnam "ghost"] :=
  ⟨by decide, by decide, by decide,
    main_unknown_user scenario_cfg (scenario_os 1000 true)
      ["suminio", "-g", "minio", "-u", "ghost", "/usr/bin/minio", "server"] "ghost"
      (some "minio") ["server"] (by decide) (by decide) (by decide)⟩

/-- C13 as stated fails: the operator names the user `root`, which is found, and
with `-g` a group that has no record, yet `main` does not end with status 3:
uid 0 is in the denylist and `main` ends with status 251 before it looks up the
group.  In the same way the user `guest`, whose gid 300 does not pass the
allowlist gate, gives status 252. -/
theorem main_unknown_group_after_user_gates :
    (scenario_os 1000 true).getuid = scenario_cfg.LENTICULARIS ∧
    parse_options ["suminio", "-u", "root", "-g", "nogroup", "/usr/bin/minio"] =
      some (some "root", some "nogroup", [scenario_cfg.MINIO]) ∧
    (scenario_os 1000 true).getpwnam "root" = some ⟨0, 200⟩ ∧
    (scenario_os 1000 true).getgrnam "nogroup" = none ∧
    (main scenario_cfg (scenario_os 1000 true)
      ["suminio", "-u", "root", "-g", "nogroup", "/usr/bin/minio"]).outcome ≠ .exit 3 ∧
    main scenario_cfg (scenario_os 1000 true)
        ["suminio", "-u", "root", "-g", "nogroup", "/usr/bin/minio"] =
      ⟨[.getpwnam "root"], .exit 251⟩ ∧
    main scenario_cfg (scenario_os 1000 true)
        ["suminio", "-u", "guest", "-g", "nogroup", "/usr/bin/minio"] =
      ⟨[.getpwnam "guest"], .exit 252⟩ := by
  decide

/-- C13, amended: the gates on the target user come before the lookup of the
group.  When the operator calls `main` with the compiled-in command path, the
user is found and `-g` names a group with no record, `main` ends with status 3,
after the two lookups, if the uid of the user is not in the denylist and its
primary gid passes `check_allowed_groups`; it ends with status 251 if the uid
is in the denylist, and with status 252 if the uid is not in the denylist and
the primary gid does not pass, both times without looking up the group. -/
theorem main_unknown_group (cfg : Config) (os : Oracle) (argv : List String)
    (user g : String) (rest : List String) (pwd : Passwd)
    (hcaller : os.getuid = cfg.LENTICULARIS)
    (hparse : parse_options argv = some (some user, some g, cfg.MINIO :: rest))
    (hpw : os.getpwnam user = some pwd)
    (hgr : os.getgrnam g = none) :
    (pwd.pw_uid ∉ cfg.DENIED_USERS → check_allowed_groups cfg pwd.pw_gid = none →
      main cfg os argv = ⟨[.getpwnam user, .getgrnam g], .exit 3⟩) ∧
    (pwd.pw_uid ∈ cfg.DENIED_USERS →
      main cfg os argv = ⟨[.getpwnam user], .exit 251⟩) ∧
    (pwd.pw_uid ∉ cfg.DENIED_USERS → check_allowed_groups cfg pwd.pw_gid ≠ none →
      main cfg os argv = ⟨[.getpwnam user], .exit 252⟩) := by
  rw [main_of_gates cfg os argv user (some g) cfg.MINIO rest hcaller hparse rfl]
  refine ⟨fun hden hgate => ?_, fun hden => ?_, fun hden hgate => ?_⟩
  · rw [resolve_of_gates cfg os user (some g) rest pwd hpw hden hgate]
    simp only [hgr]
  · have hu : check_allowed_users cfg pwd.pw_uid = some 251 :=
      (check_allowed_users_loop_some_iff _ _ _).mpr ⟨hden, rfl⟩
    simp only [resolve, hpw, hu]
  · have hu : check_allowed_users cfg pwd.pw_uid = none :=
      (check_allowed_users_loop_none_iff _ _).mpr hden
    obtain ⟨st, hst⟩ := Option.ne_none_iff_exists'.mp hgate
    have h252 : st = 252 := ((check_allowed_groups_some_iff cfg _ _).mp hst).2
    subst h252
    simp only [resolve, hpw, hu, hst]

theorem main_unknown_group_witness :
    (scenario_os 1000 true).getuid = scenario_cfg.LENTICULARIS ∧
    parse_options ["suminio", "-u", "svc", "-g", "nogroup", "/usr/bin/minio"] =
      some (some "svc", some "nogroup", scenario_cfg.MINIO :: []) ∧
    (scenario_os 1000 true).getpwnam "svc" = some ⟨2000, 200⟩ ∧
    (scenario_os 1000 true).getgrnam "nogroup" = none ∧
    (2000 : Nat) ∉ scenario_cfg.DENIED_USERS ∧
    check_allowed_groups scenario_cfg 200 = none ∧
    main scenario_cfg (scenario_os 1000 true)
        ["suminio", "-u", "svc", "-g", "nogroup", "/usr/bin/minio"] =
      ⟨[.getpwnam "svc", .getgrnam "nogroup"], .exit 3⟩ :=
  ⟨by decide, by decide, by decide, by decide, by decide, by decide,
    (main_unknown_group scenario_cfg (scenario_os 1000 true)
      ["suminio", "-u", "svc", "-g", "nogroup", "/usr/bin/minio"] "svc" "nogroup" []
      ⟨2000, 200⟩ (by decide) (by decide) (by decide) (by decide)).1 (by decide) (by decide)⟩

/-! ## The exact bound, and the bounds of the array -/

theorem handoff_short_outcome (cfg : Config) (os : Oracle) (tr : List Event) (pwd : Passwd)
    (grp : Option Group) (argv : List String) (h : argv.length ≤ 14) :
    (handoff cfg os tr pwd grp argv).outcome ≠ .exit 4 := by
  have hd : ∀ (t : List Event) (c : Buf), (drop_user cfg os t pwd c).outcome ≠ .exit 4 := by
    intro t c
    unfold drop_user
    by_cases h1 : os.setuid pwd.pw_uid = false
    · rw [if_pos h1]; simp
    · rw [if_neg h1]
      by_cases h2 : os.execve cfg.MINIO (vector_of c.cells) os.environ = true
      · rw [if_pos h2]; simp
      · rw [if_neg h2]; simp
  rw [handoff_short cfg os tr pwd grp argv h]
  cases grp with
  | none => exact hd _ _
  | some g =>
    simp only
    by_cases hsg : os.setgid g.gr_gid = false
    · rw [if_pos hsg]; simp
    · rw [if_neg hsg]; exact hd _ _

/-- C17: the bound on the trailing arguments is `nelems(cmd) - 2 = 14`.  When
all identity gates pass (caller, usage, command, user lookup, denylist,
allowlist gate, and the lookup of the group if `-g` was given), `main` ends
with exit status 4 exactly when more than 14 arguments follow the command
name: with at most 14 the status is never 4, with 15 or more it always is. -/
theorem main_argument_bound_exact (cfg : Config) (os : Oracle) (argv : List String)
    (user : String) (group : Option String) (rest : List String) (pwd : Passwd)
    (hcaller : os.getuid = cfg.LENTICULARIS)
    (hparse : parse_options argv = some (some user, group, cfg.MINIO :: rest))
    (hpw : os.getpwnam user = some pwd)
    (hden : pwd.pw_uid ∉ cfg.DENIED_USERS)
    (hgate : check_allowed_groups cfg pwd.pw_gid = none)
    (hgr : ∀ g, group = some g → os.getgrnam g ≠ none) :
    nelems_cmd - 2 = 14 ∧
    ((main cfg os argv).outcome ≠ .exit 4 ↔ rest.length ≤ 14) ∧
    (15 ≤ rest.length → (main cfg os argv).outcome = .exit 4) := by
  have key : ∃ tr grp, main cfg os argv = handoff cfg os tr pwd grp rest := by
    rw [main_of_gates cfg os argv user group cfg.MINIO rest hcaller hparse rfl,
      resolve_of_gates cfg os user group rest pwd hpw hden hgate]
    cases group with
    | none => exact ⟨_, _, rfl⟩
    | some g =>
      simp only
      cases hg : os.getgrnam g with
      | none => exact absurd hg (hgr g rfl)
      | some grp => exact ⟨_, _, rfl⟩
  obtain ⟨tr, grp, hrun⟩ := key
  rw [hrun]
  have hlong : 15 ≤ rest.length → (handoff cfg os tr pwd grp rest).outcome = .exit 4 := by
    intro h15
    rw [handoff_long cfg os tr pwd grp rest (by omega)]
  refine ⟨rfl, ⟨fun hne => ?_, fun hle => handoff_short_outcome cfg os tr pwd grp rest hle⟩,
    hlong⟩
  by_contra hgt
  exact hne (hlong (by omega))

theorem main_argument_bound_exact_witness :
    (scenario_os 1000 true).getuid = scenario_cfg.LENTICULARIS ∧
    parse_options (twenty_args_argv.take 21) =
      some (some "svc", some "minio",
        scenario_cfg.MINIO :: (twenty_args_argv.take 21).drop 6) ∧
    ((twenty_args_argv.take 21).drop 6).length = 15 ∧
    (scenario_os 1000 true).getpwnam "svc" = some ⟨2000, 200⟩ ∧
    (2000 : Nat) ∉ scenario_cfg.DENIED_USERS ∧
    check_allowed_groups scenario_cfg 200 = none ∧
    (scenario_os 1000 true).getgrnam "minio" ≠ none ∧
    (nelems_cmd - 2 = 14 ∧
      ((main scenario_cfg (scenario_os 1000 true) (twenty_args_argv.take 21)).outcome
          ≠ .exit 4 ↔ ((twenty_args_argv.take 21).drop 6).length ≤ 14) ∧
      (15 ≤ ((twenty_args_argv.take 21).drop 6).length →
        (main scenario_cfg (scenario_os 1000 true) (twenty_args_argv.take 21)).outcome
          = .exit 4)) ∧
    (main scenario_cfg (scenario_os 1000 true) (twenty_args_argv.take 20)).outcome ≠ .exit 4 :=
  ⟨by decide, by decide, by decide, by decide, by decide, by decide, by decide,
    main_argument_bound_exact scenario_cfg (scenario_os 1000 true) (twenty_args_argv.take 21)
      "svc" (some "minio") ((twenty_args_argv.take 21).drop 6) ⟨2000, 200⟩ (by decide)
      (by decide) (by decide) (by decide) (by decide)
      (fun g hg => by
        have hgm : g = "minio" := (Option.some.inj hg).symm
        subst hgm
        decide),
    ((main_argument_bound_exact scenario_cfg (scenario_os 1000 true)
      (twenty_args_argv.take 20) "svc" (some "minio") ((twenty_args_argv.take 20).drop 6)
      ⟨2000, 200⟩ (by decide) (by decide) (by decide) (by decide) (by decide)
      (fun g hg => by
        have hgm : g = "minio" := (Option.some.inj hg).symm
        subst hgm
        decide)).2.1).mpr (by decide)⟩

theorem cmd_loop_writes (args : List String) :
    ∀ (b : Buf) (i : Nat), i ≤ 15 →
      (cmd_loop b i args).1.writes = b.writes ++ List.range' i (min args.length (15 - i)) ∧
      (cmd_loop b i args).2.1 = i + min args.length (15 - i) ∧
      (cmd_loop b i args).1.cells.length = b.cells.length := by
  induction args with
  | nil =>
    intro b i _
    simp [cmd_loop]
  | cons a rest ih =>
    intro b i hi
    by_cases hlt : i + 1 < nelems_cmd
    · have hlt16 : i + 1 < 16 := hlt
      have hstep : cmd_loop b i (a :: rest) = cmd_loop (b.store i (some a)) (i + 1) rest := by
        simp [cmd_loop, hlt]
      obtain ⟨h1, h2, h3⟩ := ih (b.store i (some a)) (i + 1) (by omega)
      have e15 : 15 - i = (15 - (i + 1)) + 1 := by omega
      have emin : min (a :: rest).length (15 - i) = min rest.length (15 - (i + 1)) + 1 := by
        rw [e15, List.length_cons, Nat.succ_min_succ]
      rw [hstep, emin, h1, h2, h3, List.range'_succ]
      refine ⟨by simp [Buf.store], by omega, by simp [Buf.store]⟩
    · have hi15 : i = 15 := by unfold nelems_cmd at hlt; omega
      have hstep : cmd_loop b i (a :: rest) = (b, i, a :: rest) := by
        simp [cmd_loop, hlt]
      rw [hstep]
      subst hi15
      simp

/-- C18: the array `cmd` is never overrun.  For every list of trailing
arguments, the assignments made while the vector is built, the final `NULL`
included, are to the indices 0, 1, ..., k in this order, where
k = 1 + min(number of arguments, 14), so every index is below
`nelems(cmd) = 16`; afterwards the array, which still has 16 elements, holds
`NULL` at index k, which is at most 15, and a string at every index before. -/
theorem build_cmd_within_bounds (cfg : Config) (os : Oracle) (argv : List String) :
    (build_cmd cfg os argv).1.writes = List.range (min argv.length 14 + 2) ∧
    (∀ i ∈ (build_cmd cfg os argv).1.writes, i < nelems_cmd) ∧
    (build_cmd cfg os argv).1.cells.length = nelems_cmd ∧
    ∃ k, k = 1 + min argv.length 14 ∧ k ≤ 15 ∧
      (build_cmd cfg os argv).1.cells[k]? = some none ∧
      ∀ j, j < k → ∃ s, (build_cmd cfg os argv).1.cells[j]? = some (some s) := by
  have hbuild : build_cmd cfg os argv =
      ((cmd_loop (Buf.store ⟨List.ofFn os.stack, []⟩ 0 (some cfg.MINIO)) 1 argv).1.store
        (cmd_loop (Buf.store ⟨List.ofFn os.stack, []⟩ 0 (some cfg.MINIO)) 1 argv).2.1 none,
       (cmd_loop (Buf.store ⟨List.ofFn os.stack, []⟩ 0 (some cfg.MINIO)) 1 argv).2.2) := rfl
  obtain ⟨h1, h2, h3⟩ :=
    cmd_loop_writes argv (Buf.store ⟨List.ofFn os.stack, []⟩ 0 (some cfg.MINIO)) 1 (by omega)
  have hw : (build_cmd cfg os argv).1.writes = List.range (min argv.length 14 + 2) := by
    rw [hbuild]
    show (cmd_loop _ 1 argv).1.writes ++ [(cmd_loop _ 1 argv).2.1] = _
    rw [h1, h2, List.range_eq_range', List.range'_succ 0, List.range'_concat 1]
    simp [Buf.store]
  have hlen : (build_cmd cfg os argv).1.cells.length = nelems_cmd := by
    rw [hbuild]
    show ((cmd_loop _ 1 argv).1.cells.set _ none).length = _
    rw [List.length_set, h3]
    simp [Buf.store, nelems_cmd]
  obtain ⟨-, suf, hcells⟩ := build_cmd_cells cfg os argv
  have hk : (List.map some (cfg.MINIO :: List.take 14 argv)).length = 1 + min argv.length 14 := by
    simp [List.length_take, Nat.min_comm, Nat.add_comm]
  refine ⟨hw, ?_, hlen, 1 + min argv.length 14, rfl, by omega, ?_, ?_⟩
  · intro i hi
    rw [hw, List.mem_range] at hi
    unfold nelems_cmd
    omega
  · rw [hcells, List.getElem?_append_right (by rw [hk]), hk, Nat.sub_self]
    simp
  · intro j hj
    rw [hcells, List.getElem?_append_left (by rw [hk]; exact hj), List.getElem?_map]
    have hjl : j < (cfg.MINIO :: List.take 14 argv).length := by
      rw [List.length_map] at hk
      rw [hk]; exact hj
    exact ⟨(cfg.MINIO :: List.take 14 argv)[j], by rw [List.getElem?_eq_getElem hjl]; rfl⟩

/-! ## The first end-to-end scenario -/

/-- C11 as stated fails: in the scenario (operator 1000, user `svc` with uid
2000 and gid 200, allowlist `[200]`, no `-g`, two arguments) `main` reaches
`execve` with the expected vector, but it has called `setuid` only: a process
started with group id 1000 has user id 2000 and still group id 1000, not 200,
at that point.  Moreover with the allowlist `[200, 300]`, which contains 200,
the run ends with status 252 instead. -/
theorem main_plain_run_keeps_group :
    (scenario_os 1000 true).getuid = scenario_cfg.LENTICULARIS ∧
    parse_options plain_argv =
      some (some "svc", none, [scenario_cfg.MINIO, "server", "/data"]) ∧
    (scenario_os 1000 true).getpwnam "svc" = some ⟨2000, 200⟩ ∧
    (2000 : Nat) ∉ scenario_cfg.DENIED_USERS ∧
    (200 : Nat) ∈ scenario_cfg.ALLOWED_GROPUS ∧
    (scenario_os 1000 true).setuid 2000 = true ∧
    main scenario_cfg (scenario_os 1000 true) plain_argv =
      ⟨[.getpwnam "svc", .setuid 2000,
          .execve "/usr/bin/minio" ["/usr/bin/minio", "server", "/data"] ["PATH=/usr/bin"]],
        .exec "/usr/bin/minio" ["/usr/bin/minio", "server", "/data"] ["PATH=/usr/bin"]⟩ ∧
    cred_after (scenario_os 1000 true) ⟨0, 1000⟩
        (main scenario_cfg (scenario_os 1000 true) plain_argv).trace = ⟨2000, 1000⟩ ∧
    (cred_after (scenario_os 1000 true) ⟨0, 1000⟩
        (main scenario_cfg (scenario_os 1000 true) plain_argv).trace).gid ≠ 200 ∧
    (200 : Nat) ∈ two_groups_cfg.ALLOWED_GROPUS ∧
    (main two_groups_cfg (scenario_os 1000 true) plain_argv).outcome = .exit 252 := by
  decide

/-- C11, amended: when the operator calls `main` without `-g`, with `-u` naming
a user that is found with uid `U` and primary gid `G`, `U` not in the denylist,
`G` the only gid of the allowlist, the compiled-in command path and two
arguments, and `setuid` succeeds, the calls made are `getpwnam`, `setuid(U)`
and `execve` of the target path with the vector `[path, arg1, arg2]` and
`environ`, and the process becomes the target program if `execve` succeeds.
At that point the process has user id `U` and the group id it was started
with: `setgid` is not called. -/
theorem main_plain_success (cfg : Config) (os : Oracle) (argv : List String)
    (user a1 a2 : String) (pwd : Passwd) (c : Cred)
    (hcaller : os.getuid = cfg.LENTICULARIS)
    (hparse : parse_options argv = some (some user, none, [cfg.MINIO, a1, a2]))
    (hpw : os.getpwnam user = some pwd)
    (hden : pwd.pw_uid ∉ cfg.DENIED_USERS)
    (hallow : pwd.pw_gid ∈ cfg.ALLOWED_GROPUS ∧ ∀ a ∈ cfg.ALLOWED_GROPUS, a = pwd.pw_gid)
    (hsu : os.setuid pwd.pw_uid = true) :
    (main cfg os argv).trace =
      [.getpwnam user, .setuid pwd.pw_uid,
        .execve cfg.MINIO [cfg.MINIO, a1, a2] os.environ] ∧
    (os.execve cfg.MINIO [cfg.MINIO, a1, a2] os.environ = true →
      (main cfg os argv).outcome = .exec cfg.MINIO [cfg.MINIO, a1, a2] os.environ) ∧
    cred_after os c (main cfg os argv).trace = ⟨pwd.pw_uid, c.gid⟩ := by
  have hgate := (check_allowed_groups_none_iff cfg pwd.pw_gid).mpr hallow.2
  have hlen : [a1, a2].length ≤ 14 := by simp
  have hvec := (build_cmd_short cfg os [a1, a2] hlen).2
  have hsu2 : ¬ os.setuid pwd.pw_uid = false := by simp [hsu]
  have hrun : main cfg os argv =
      drop_user cfg os [.getpwnam user] pwd (build_cmd cfg os [a1, a2]).1 := by
    rw [main_of_gates cfg os argv user none cfg.MINIO [a1, a2] hcaller hparse rfl,
      resolve_of_gates cfg os user none [a1, a2] pwd hpw hden hgate]
    simp only
    rw [handoff_short cfg os _ pwd none [a1, a2] hlen]
  rw [hrun]
  unfold drop_user
  rw [if_neg hsu2, hvec]
  by_cases hx : os.execve cfg.MINIO [cfg.MINIO, a1, a2] os.environ = true
  · rw [if_pos hx]
    refine ⟨rfl, fun _ => rfl, ?_⟩
    simp [cred_after, Cred.step, hsu]
  · rw [if_neg hx]
    refine ⟨rfl, fun h => absurd h hx, ?_⟩
    simp [cred_after, Cred.step, hsu]

theorem main_plain_success_witness :
    (scenario_os 1000 true).getuid = scenario_cfg.LENTICULARIS ∧
    parse_options plain_argv =
      some (some "svc", none, [scenario_cfg.MINIO, "server", "/data"]) ∧
    (scenario_os 1000 true).getpwnam "svc" = some ⟨2000, 200⟩ ∧
    (2000 : Nat) ∉ scenario_cfg.DENIED_USERS ∧
    ((200 : Nat) ∈ scenario_cfg.ALLOWED_GROPUS ∧ ∀ a ∈ scenario_cfg.ALLOWED_GROPUS, a = 200) ∧
    (scenario_os 1000 true).setuid 2000 = true ∧
    ((main scenario_cfg (scenario_os 1000 true) plain_argv).trace =
      [.getpwnam "svc", .setuid (⟨2000, 200⟩ : Passwd).pw_uid,
        .execve scenario_cfg.MINIO [scenario_cfg.MINIO, "server", "/data"]
          (scenario_os 1000 true).environ] ∧
    ((scenario_os 1000 true).execve scenario_cfg.MINIO
        [scenario_cfg.MINIO, "server", "/data"] (scenario_os 1000 true).environ = true →
      (main scenario_cfg (scenario_os 1000 true) plain_argv).outcome =
        .exec scenario_cfg.MINIO [scenario_cfg.MINIO, "server", "/data"]
          (scenario_os 1000 true).environ) ∧
    cred_after (scenario_os 1000 true) ⟨0, 1000⟩
        (main scenario_cfg (scenario_os 1000 true) plain_argv).trace =
      ⟨(⟨2000, 200⟩ : Passwd).pw_uid, (⟨0, 1000⟩ : Cred).gid⟩) :=
  ⟨by decide, by decide, by decide, by decide, by decide, by decide,
    main_plain_success scenario_cfg (scenario_os 1000 true) plain_argv "svc" "server" "/data"
      ⟨2000, 200⟩ ⟨0, 1000⟩ (by decide) (by decide) (by decide) (by decide) (by decide)
      (by decide)⟩

/-! ## The option loop on the shapes of a command line -/

theorem getopt_cons (a : String) (rest : List String) :
    getopt (a :: rest) =
      if a = "--" then .done rest
      else
        match a.data with
        | '-' :: c :: tail =>
          if c = 'u' ∨ c = 'g' then
            match tail with
            | _ :: _ => .opt c (String.mk tail) rest
            | [] =>
              match rest with
              | [] => .err
              | v :: rest2 => .opt c v rest2
          else .err
        | _ => .done (a :: rest) := rfl

theorem getopt_nonoption (cmd : String) (rest : List String)
    (h : starts_with_dash cmd = false) : getopt (cmd :: rest) = .done (cmd :: rest) := by
  have hne : cmd ≠ "--" := by
    rintro rfl
    exact absurd h (by decide)
  rw [getopt_cons, if_neg hne]
  unfold starts_with_dash at h
  split
  · rename_i c tail heq
    rw [heq] at h
    exact absurd h (by simp)
  · rfl

theorem getopt_unknown_option (bad : String) (rest : List String)
    (h : unknown_option bad = true) : getopt (bad :: rest) = .err := by
  unfold unknown_option at h
  rw [getopt_cons]
  split at h
  · rename_i c tail heq
    simp only [ne_eq, decide_eq_true_eq] at h
    rw [if_neg h.1, if_neg (by simp [h.2.1, h.2.2])]
  · exact absurd h (by simp)

theorem getopt_render (o : Opt) (tail : List String) (h : o.wf = true) :
    getopt (o.render ++ tail) =
      match o with
      | .user _ v => .opt 'u' v tail
      | .group _ v => .opt 'g' v tail := by
  cases o with
  | user joined v =>
    cases joined with
    | false => rfl
    | true =>
      have hd : v.data ≠ [] := by simpa [Opt.wf] using h
      have hne : String.mk ('-' :: 'u' :: v.data) ≠ "--" := by
        intro e
        have := congrArg String.data e
        simp at this
      obtain ⟨x, xs, hx⟩ := List.exists_cons_of_ne_nil hd
      show getopt (String.mk ('-' :: 'u' :: v.data) :: tail) = _
      rw [getopt_cons, if_neg hne]
      simp only [hx, true_or, if_true]
      congr 1
      show String.mk (x :: xs) = v
      rw [← hx]
  | group joined v =>
    cases joined with
    | false => rfl
    | true =>
      have hd : v.data ≠ [] := by simpa [Opt.wf] using h
      have hne : String.mk ('-' :: 'g' :: v.data) ≠ "--" := by
        intro e
        have := congrArg String.data e
        simp at this
      obtain ⟨x, xs, hx⟩ := List.exists_cons_of_ne_nil hd
      show getopt (String.mk ('-' :: 'g' :: v.data) :: tail) = _
      rw [getopt_cons, if_neg hne]
      simp only [hx, or_true, if_true]
      congr 1
      show String.mk (x :: xs) = v
      rw [← hx]

theorem getopt_loop_render (opts : List Opt) :
    ∀ (tail : List String) (u g : Option String), (∀ o ∈ opts, o.wf = true) →
      getopt_loop ((render_options opts ++ tail).length + 1) (render_options opts ++ tail) u g =
        getopt_loop (tail.length + 1) tail (options_user u opts) (options_group g opts) := by
  induction opts with
  | nil => intro tail u g _; rfl
  | cons o opts ih =>
    intro tail u g hwf
    have ho := hwf o (List.mem_cons_self _ _)
    have hrest : ∀ x ∈ opts, x.wf = true := fun x hx => hwf x (List.mem_cons_of_mem _ hx)
    rw [getopt_loop_unfold]
    show (match getopt (o.render ++ render_options opts ++ tail) with
      | .done rest => some (u, g, rest)
      | .opt ch optarg rest =>
        if ch = 'u' then getopt_loop (rest.length + 1) rest (some optarg) g
        else if ch = 'g' then getopt_loop (rest.length + 1) rest u (some optarg)
        else none
      | .err => none) = _
    rw [List.append_assoc, getopt_render o _ ho]
    cases o with
    | user joined v =>
      simp only [if_true]
      rw [ih tail (some v) g hrest]
      rfl
    | group joined v =>
      have hgu : ¬ ('g' = 'u') := by decide
      simp only [hgu, if_false, if_true]
      rw [ih tail u (some v) hrest]
      rfl

theorem parse_options_render (prog : String) (opts : List Opt) (tail : List String)
    (hwf : ∀ o ∈ opts, o.wf = true) :
    parse_options (prog :: (render_options opts ++ tail)) =
      getopt_loop (tail.length + 1) tail (options_user none opts) (options_group none opts) :=
  getopt_loop_render opts tail none none hwf

theorem resolve_outcome_not_usage (cfg : Config) (os : Oracle) (user : String)
    (group : Option String) (rest : List String) :
    (resolve cfg os user group rest).outcome ≠ .exit 125 := by
  have hh : ∀ (tr : List Event) (pwd : Passwd) (grp : Option Group),
      (handoff cfg os tr pwd grp rest).outcome ≠ .exit 125 := by
    intro tr pwd grp e
    rcases handoff_outcome cfg os tr pwd grp rest with ⟨st, h1, h2⟩ | ⟨p, a, v, h1⟩
    · rw [h1] at e
      injection e with e
      omega
    · rw [h1] at e
      exact Outcome.noConfusion e
  unfold resolve
  split
  · simp
  · rename_i pwd hpw
    split
    · rename_i st hst
      have := ((check_allowed_users_loop_some_iff _ _ _).mp hst).2
      subst this
      simp
    · split
      · rename_i st hst
        have := ((check_allowed_groups_some_iff cfg _ _).mp hst).2
        subst this
        simp
      · split
        · exact hh _ _ _
        · split
          · simp
          · exact hh _ _ _

theorem main_outcome_not_usage (cfg : Config) (os : Oracle) (argv : List String)
    (user : String) (group : Option String) (arg0 : String) (rest : List String)
    (hparse : parse_options argv = some (some user, group, arg0 :: rest)) :
    (main cfg os argv).outcome ≠ .exit 125 := by
  unfold main
  split
  · rename_i st hst
    have := ((check_allowed_base_user_some_iff _ _ _).mp hst).2
    subst this
    simp
  · simp only [hparse]
    split
    · rename_i st hst
      have := ((cechk_allowed_command_some_iff _ _ _).mp hst).2
      subst this
      simp
    · exact resolve_outcome_not_usage cfg os user group rest

theorem resolve_execve_vector (cfg : Config) (os : Oracle) (user : String)
    (group : Option String) (rest : List String) (p : String) (a v : List String)
    (h : Event.execve p a v ∈ (resolve cfg os user group rest).trace) :
    a = cfg.MINIO :: rest := by
  obtain ⟨pwd, -, -, -, hlen, hres⟩ := resolve_action_inv cfg os user group rest _ h rfl
  have hvec := (build_cmd_short cfg os rest hlen).2
  have hdrop : ∀ tr : List Event, (∀ e ∈ tr, ∀ p a v, e ≠ .execve p a v) →
      Event.execve p a v ∈ (drop_user cfg os tr pwd (build_cmd cfg os rest).1).trace →
      a = cfg.MINIO :: rest := by
    intro tr htr hin
    obtain ⟨post, ht, hpost, -⟩ := drop_user_trace cfg os tr pwd (build_cmd cfg os rest).1
    rw [ht] at hin
    rw [hvec] at hpost
    rcases List.mem_append.mp hin with hin | hin
    · exact absurd rfl (htr _ hin p a v)
    · rcases hpost with rfl | rfl
      · simp at hin
      · simp only [List.mem_cons, List.mem_singleton, Event.execve.injEq] at hin
        rcases hin with hin | hin
        · exact Event.noConfusion hin
        · rcases hin with ⟨-, h2, -⟩ | hin
          · exact h2
          · exact absurd hin (List.not_mem_nil _)
  rcases hres with ⟨-, hrun⟩ | ⟨g, r, -, -, hrun⟩
  · rw [hrun, handoff_short cfg os _ pwd none rest hlen] at h
    exact hdrop _ (by simp) h
  · rw [hrun, handoff_short cfg os _ pwd (some r) rest hlen] at h
    simp only at h
    by_cases hsg : os.setgid r.gr_gid = false
    · rw [if_pos hsg] at h
      simp at h
    · rw [if_neg hsg] at h
      exact hdrop _ (by simp) h

theorem main_usage_of_parse (cfg : Config) (os : Oracle) (argv : List String)
    (hcaller : os.getuid = cfg.LENTICULARIS)
    (h : parse_options argv = none ∨
      (∃ g rest, parse_options argv = some (none, g, rest)) ∨
      (∃ u g, parse_options argv = some (u, g, []))) :
    main cfg os argv = ⟨[], .exit 125⟩ := by
  have h1 := (check_allowed_base_user_none_iff cfg os.getuid).mpr hcaller
  rcases h with h | ⟨g, rest, h⟩ | ⟨u, g, h⟩
  · simp only [main, h1, h, usage]
  · simp only [main, h1, h, usage]
  · cases u with
    | none => simp only [main, h1, h, usage]
    | some u => simp only [main, h1, h, usage]

theorem parse_options_command (prog : String) (opts : List Opt) (cmd : String)
    (rest : List String) (hwf : ∀ o ∈ opts, o.wf = true)
    (hcmd : starts_with_dash cmd = false) :
    parse_options (prog :: (render_options opts ++ cmd :: rest)) =
      some (options_user none opts, options_group none opts, cmd :: rest) := by
  rw [parse_options_render prog opts (cmd :: rest) hwf, getopt_loop_unfold,
    getopt_nonoption cmd rest hcmd]

theorem parse_options_error (prog : String) (opts : List Opt) (tail : List String)
    (hwf : ∀ o ∈ opts, o.wf = true) (herr : getopt tail = .err) :
    parse_options (prog :: (render_options opts ++ tail)) = none := by
  rw [parse_options_render prog opts tail hwf, getopt_loop_unfold, herr]

/-! ## Usage errors -/

/-- C14: when the operator calls `main` and the option loop ends in `usage`
(`getopt` returned `'?'`), or leaves `user` unset, or leaves no argument for
the command, `main` ends with exit status 125 and has made no call at all.  On
the command line this is the case when, after any sequence of complete
options, there comes an option with a letter other than `u` and `g`, or a
final `-u` or `-g` without argument, or nothing at all, or when a command
follows but no `-u` is among the options.  The status 125 is none of 2, 3, 4,
5, 6, 126, 249, 250, 251, 252. -/
theorem main_usage_error (cfg : Config) (os : Oracle)
    (hcaller : os.getuid = cfg.LENTICULARIS) :
    (∀ argv, (parse_options argv = none ∨
        (∃ g rest, parse_options argv = some (none, g, rest)) ∨
        (∃ u g, parse_options argv = some (u, g, []))) →
      main cfg os argv = ⟨[], .exit 125⟩) ∧
    (∀ prog opts, (∀ o ∈ opts, o.wf = true) →
      (∀ bad rest, unknown_option bad = true →
        main cfg os (prog :: (render_options opts ++ bad :: rest)) = ⟨[], .exit 125⟩) ∧
      main cfg os (prog :: (render_options opts ++ ["-u"])) = ⟨[], .exit 125⟩ ∧
      main cfg os (prog :: (render_options opts ++ ["-g"])) = ⟨[], .exit 125⟩ ∧
      main cfg os (prog :: (render_options opts ++ [])) = ⟨[], .exit 125⟩ ∧
      (∀ cmd rest, starts_with_dash cmd = false → options_user none opts = none →
        main cfg os (prog :: (render_options opts ++ cmd :: rest)) = ⟨[], .exit 125⟩)) ∧
    usage = 125 ∧
    125 ∉ [2, 3, 4, 5, 6, 126, 249, 250, 251, 252] := by
  refine ⟨fun argv h => main_usage_of_parse cfg os argv hcaller h, ?_, rfl, by decide⟩
  intro prog opts hwf
  refine ⟨fun bad rest hbad => ?_, ?_, ?_, ?_, fun cmd rest hcmd hu => ?_⟩
  · exact main_usage_of_parse cfg os _ hcaller
      (Or.inl (parse_options_error prog opts _ hwf (getopt_unknown_option bad rest hbad)))
  · exact main_usage_of_parse cfg os _ hcaller
      (Or.inl (parse_options_error prog opts _ hwf rfl))
  · exact main_usage_of_parse cfg os _ hcaller
      (Or.inl (parse_options_error prog opts _ hwf rfl))
  · refine main_usage_of_parse cfg os _ hcaller
      (Or.inr (Or.inr ⟨options_user none opts, options_group none opts, ?_⟩))
    rw [parse_options_render prog opts [] hwf]
    rfl
  · refine main_usage_of_parse cfg os _ hcaller
      (Or.inr (Or.inl ⟨options_group none opts, cmd :: rest, ?_⟩))
    rw [parse_options_command prog opts cmd rest hwf hcmd, hu]

theorem main_usage_error_witness :
    (scenario_os 1000 true).getuid = scenario_cfg.LENTICULARIS ∧
    main scenario_cfg (scenario_os 1000 true) ["suminio", "/usr/bin/minio", "server"] =
      ⟨[], .exit 125⟩ ∧
    main scenario_cfg (scenario_os 1000 true) ["suminio", "-g", "minio", "-usvc"] =
      ⟨[], .exit 125⟩ ∧
    main scenario_cfg (scenario_os 1000 true)
        ["suminio", "-u", "svc", "-x", "/usr/bin/minio"] = ⟨[], .exit 125⟩ ∧
    main scenario_cfg (scenario_os 1000 true) ["suminio", "-u", "svc", "-g"] =
      ⟨[], .exit 125⟩ ∧
    main scenario_cfg (scenario_os 1000 true) [] = ⟨[], .exit 125⟩ :=
  ⟨by decide,
    ((main_usage_error scenario_cfg (scenario_os 1000 true) (by decide)).2.1 "suminio" []
      (by decide)).2.2.2.2 "/usr/bin/minio" ["server"] (by decide) (by decide),
    ((main_usage_error scenario_cfg (scenario_os 1000 true) (by decide)).2.1 "suminio"
      [.group false "minio", .user true "svc"] (by decide)).2.2.2.1,
    ((main_usage_error scenario_cfg (scenario_os 1000 true) (by decide)).2.1 "suminio"
      [.user false "svc"] (by decide)).1 "-x" ["/usr/bin/minio"] (by decide),
    ((main_usage_error scenario_cfg (scenario_os 1000 true) (by decide)).2.1 "suminio"
      [.user false "svc"] (by decide)).2.2.1,
    (main_usage_error scenario_cfg (scenario_os 1000 true) (by decide)).1 []
      (Or.inr (Or.inl ⟨none, [], by decide⟩))⟩

/-! ## Arguments after the command -/

/-- C15: on a command line made of the program name, a sequence of complete
options, a command that does not start with `-` and any further elements, the
option loop ends at the command: `user` and `group` are those named by the
options before the command, and what is left is the command followed by all
the further elements, unchanged, whatever they look like.  So the loop does
not call `usage`, every `execve` that `main` makes passes exactly these
further elements after the program path, and when `-u` is among the options
`main` does not end with the usage status 125. -/
theorem main_stops_at_command (prog : String) (opts : List Opt) (cmd : String)
    (rest : List String) (hwf : ∀ o ∈ opts, o.wf = true)
    (hcmd : starts_with_dash cmd = false) :
    parse_options (prog :: (render_options opts ++ cmd :: rest)) =
      some (options_user none opts, options_group none opts, cmd :: rest) ∧
    ∀ (cfg : Config) (os : Oracle),
      (∀ p a v, Event.execve p a v ∈
          (main cfg os (prog :: (render_options opts ++ cmd :: rest))).trace →
        a = cfg.MINIO :: rest) ∧
      (options_user none opts ≠ none →
        (main cfg os (prog :: (render_options opts ++ cmd :: rest))).outcome ≠ .exit 125) := by
  have hparse := parse_options_command prog opts cmd rest hwf hcmd
  refine ⟨hparse, fun cfg os => ⟨fun p a v hin => ?_, fun hu => ?_⟩⟩
  · obtain ⟨-, user, group, rest2, hp, hmain⟩ :=
      main_event_inv cfg os _ (List.ne_nil_of_mem hin)
    rw [hparse] at hp
    simp only [Option.some.injEq, Prod.mk.injEq, List.cons.injEq] at hp
    obtain ⟨-, -, -, hrest⟩ := hp
    rw [hmain] at hin
    rw [hrest]
    exact resolve_execve_vector cfg os user group rest2 p a v hin
  · obtain ⟨u, hu2⟩ := Option.ne_none_iff_exists'.mp hu
    rw [hu2] at hparse
    exact main_outcome_not_usage cfg os _ u _ cmd rest hparse

theorem main_stops_at_command_witness :
    (∀ o ∈ [Opt.group true "minio", Opt.user false "svc"], o.wf = true) ∧
    starts_with_dash "/usr/bin/minio" = false ∧
    parse_options ["suminio", "-gminio", "-u", "svc", "/usr/bin/minio", "-u", "root", "-x",
        "--", "-g"] =
      some (some "svc", some "minio", ["/usr/bin/minio", "-u", "root", "-x", "--", "-g"]) ∧
    main scenario_cfg (scenario_os 1000 true)
        ["suminio", "-gminio", "-u", "svc", "/usr/bin/minio", "-u", "root", "-x", "--",
          "-g"] =
      ⟨[.getpwnam "svc", .getgrnam "minio", .setgid 200, .setuid 2000,
          .execve "/usr/bin/minio" ["/usr/bin/minio", "-u", "root", "-x", "--", "-g"]
            ["PATH=/usr/bin"]],
        .exec "/usr/bin/minio" ["/usr/bin/minio", "-u", "root", "-x", "--", "-g"]
          ["PATH=/usr/bin"]⟩ ∧
    (main scenario_cfg (scenario_os 1000 true)
      ("suminio" :: (render_options [Opt.group true "minio", Opt.user false "svc"] ++
        "/usr/bin/minio" :: ["-u", "root", "-x", "--", "-g"]))).outcome ≠ .exit 125 :=
  ⟨by decide, by decide,
    (main_stops_at_command "suminio" [.group true "minio", .user false "svc"]
      "/usr/bin/minio" ["-u", "root", "-x", "--", "-g"] (by decide) (by decide)).1,
    by decide,
    ((main_stops_at_command "suminio" [.group true "minio", .user false "svc"]
      "/usr/bin/minio" ["-u", "root", "-x", "--", "-g"] (by decide) (by decide)).2
      scenario_cfg (scenario_os 1000 true)).2 (by decide)⟩

end Suminio

namespace Nrandom

/-! ## The number of blocks -/

theorem rounded_blocks_of_le (size : Nat) (h0 : 0 < size) (h : size ≤ SIZE_MOD - BSIZE) :
    rounded_blocks size = (size + BSIZE - 1) / BSIZE := by
  unfold rounded_blocks
  unfold SIZE_MOD BSIZE at *
  by_cases he : size = 2 ^ 64 - 4096
  · subst he
    norm_num
  · have h1 : (size + 4096) % 2 ^ 64 = size + 4096 := Nat.mod_eq_of_lt (by omega)
    rw [h1]
    have h2 : size + 4096 + 2 ^ 64 - 1 = (size + 4095) + 2 ^ 64 := by omega
    rw [h2, Nat.add_mod_right, Nat.mod_eq_of_lt (by omega)]
    rfl

theorem rounded_blocks_of_gt (size : Nat) (h : SIZE_MOD - BSIZE < size)
    (hmax : size ≤ SIZE_MAX) : rounded_blocks size = 0 := by
  unfold rounded_blocks
  unfold SIZE_MAX SIZE_MOD BSIZE at *
  have h1 : (size + 4096) % 2 ^ 64 = size + 4096 - 2 ^ 64 := by
    rw [Nat.mod_eq_sub_mod (by omega), Nat.mod_eq_of_lt (by omega)]
  rw [h1]
  have h2 : size + 4096 - 2 ^ 64 + 2 ^ 64 - 1 = (size + 4095 - 2 ^ 64) + 2 ^ 64 := by omega
  rw [h2, Nat.add_mod_right, Nat.mod_eq_of_lt (by omega)]
  exact Nat.div_eq_of_lt (by omega)

theorem block_count_eq_none_iff (size : Nat) (h0 : 0 < size) (hmax : size ≤ SIZE_MAX) :
    block_count size = none ↔ SIZE_MOD - BSIZE < size := by
  unfold block_count
  rw [if_neg (by omega)]
  constructor
  · intro h
    by_contra hle
    have hr := rounded_blocks_of_le size h0 (by omega)
    have hpos : 0 < (size + BSIZE - 1) / BSIZE := by
      apply Nat.div_pos
      · unfold BSIZE; omega
      · unfold BSIZE; omega
    rw [if_pos (by rw [hr]; omega)] at h
    exact Option.noConfusion h
  · intro h
    rw [if_neg (by rw [rounded_blocks_of_gt size h hmax]; simp)]

theorem write_loop_zero (fuel : Nat) :
    ∀ i written, write_loop 0 fuel i written = (written + fuel, false) := by
  induction fuel with
  | zero => intro i written; rfl
  | succ n ih =>
    intro i written
    unfold write_loop
    rw [if_pos (Or.inl rfl), ih]
    congr 1
    omega

theorem write_loop_ends (count : Nat) (hc : count < SIZE_MOD) (fuel : Nat) :
    ∀ i written, i ≤ count → 0 < count → count - i < fuel →
      write_loop count fuel i written = (written + (count - i), true) := by
  induction fuel with
  | zero => intro i written _ _ h; omega
  | succ n ih =>
    intro i written hi hpos hf
    unfold write_loop
    by_cases hlt : i < count
    · rw [if_pos (Or.inr hlt), Nat.mod_eq_of_lt (by omega), ih (i + 1) (written + 1) hlt hpos
        (by omega)]
      congr 1
      omega
    · rw [if_neg (by omega)]
      congr 1
      omega

/-- For a size between 1 and `SIZE_MAX - BSIZE + 1` the run ends after writing
the least number of blocks that holds `size` bytes. -/
theorem main_writes_rounded_size (size fuel : Nat) (h0 : 0 < size)
    (h : size ≤ SIZE_MOD - BSIZE) (hfuel : (size + BSIZE - 1) / BSIZE < fuel) :
    main size fuel = ⟨(size + BSIZE - 1) / BSIZE, .returned 0⟩ ∧
    size ≤ BSIZE * ((size + BSIZE - 1) / BSIZE) ∧
    BSIZE * ((size + BSIZE - 1) / BSIZE) < size + BSIZE := by
  have hr := rounded_blocks_of_le size h0 h
  have hpos : 0 < (size + BSIZE - 1) / BSIZE := by
    apply Nat.div_pos
    · unfold BSIZE; omega
    · unfold BSIZE; omega
  have hlt : (size + BSIZE - 1) / BSIZE < SIZE_MOD := by
    apply Nat.div_lt_of_lt_mul
    unfold SIZE_MOD BSIZE at *
    omega
  have hb : block_count size = some ((size + BSIZE - 1) / BSIZE) := by
    unfold block_count
    rw [if_neg (by omega), if_pos (by rw [hr]; omega), hr]
  refine ⟨?_, ?_, ?_⟩
  · unfold main
    rw [hb]
    simp only
    rw [write_loop_ends _ hlt fuel 0 0 (Nat.zero_le _) hpos (by omega)]
    simp
  · have := Nat.div_add_mod (size + BSIZE - 1) BSIZE
    have hm := Nat.mod_lt (size + BSIZE - 1) (show 0 < BSIZE by unfold BSIZE; omega)
    unfold BSIZE at *
    omega
  · have := Nat.div_add_mod (size + BSIZE - 1) BSIZE
    unfold BSIZE at *
    omega

/-- Without `-s`, or with the size 0, the loop never ends: after any number of
passes that many blocks have been written and the loop is still running. -/
theorem main_zero_never_ends (fuel : Nat) : main 0 fuel = ⟨fuel, .running⟩ := by
  unfold main
  have hb : block_count 0 = some 0 := rfl
  rw [hb]
  simp only
  rw [write_loop_zero]
  simp

/-- C16: the output is not the size rounded up for the largest sizes.  For
`-s 18446744073709551615`, which is `SIZE_MAX`, the sum `size + BSIZE - 1`
wraps around to 4094, `count` is 0, the assertion fails and the process is
aborted before it writes anything, however long the run is followed; the
least number of blocks that holds `SIZE_MAX` bytes is `2 ^ 52`. -/
theorem main_aborts_at_size_max :
    (∀ fuel, main SIZE_MAX fuel = ⟨0, .aborted⟩) ∧
    0 < SIZE_MAX ∧ SIZE_MAX < SIZE_MOD ∧
    SIZE_MAX ≤ BSIZE * 2 ^ 52 ∧ BSIZE * (2 ^ 52 - 1) < SIZE_MAX := by
  have hb : block_count SIZE_MAX = none := by decide
  refine ⟨fun fuel => ?_, by decide, by decide, by decide, by decide⟩
  unfold main
  rw [hb]

/-- C19: the assertion `assert(count != 0)` fails for the non-zero size
`SIZE_MAX`, which `-s 18446744073709551615` gives: `size + BSIZE` wraps around
to 4095, so `(size + BSIZE - 1) / BSIZE` is `4094 / 4096`, which is 0. -/
theorem rounded_blocks_size_max_zero :
    0 < SIZE_MAX ∧ SIZE_MAX = 18446744073709551615 ∧
    (SIZE_MAX + BSIZE) % SIZE_MOD = 4095 ∧
    rounded_blocks SIZE_MAX = 0 ∧
    block_count SIZE_MAX = none := by
  decide

end Nrandom
